import Mathlib

/-!
# Verification of `amplifier-bundle-plugin-compat`

A shallow embedding of the core pipeline of the plugin-compatibility tool
(parser, translator, registry store, installer) together with proofs of the
specification claims.

Conventions of the embedding:

* Python values that flow through the dynamically-typed parts of the code
  (parsed YAML/JSON documents, dict entries) are modelled by the inductive
  type `Yaml`.  Python `None` is `Yaml.null`; Python dicts are ordered
  association lists (insertion order, unique keys — as Python dicts).
* Python runtime exceptions are modelled by `Except PyErr`.  A function that
  can raise returns `Except PyErr α`; `.error e` is an uncaught exception of
  kind `e`.
* The external PyYAML library (`yaml.safe_load` / `yaml.dump`) is not part of
  the repository; translator functions take the loader and dumper as explicit
  parameters (`YLoad` / `YDump`).  Concrete instantiations used in witnesses
  (`miniYamlLoad`, `miniYamlDump`) model PyYAML's behaviour on the small
  fragment of documents actually exercised.
* Strings are handled at the character-list level; `pyWs` is the ASCII part
  of Python's `\s` class, sufficient for the documents considered.
-/

/-- Kinds of Python runtime exceptions distinguished by the model. -/
inductive PyErr where
  | attributeError
  | typeError
  | keyError
  | yamlError
  | jsonError
  | osError
  | valueError
deriving DecidableEq

/-- Python values as they appear after `yaml.safe_load` / `json.load`:
`null` is Python `None`; `map` is a Python dict in insertion order. -/
inductive Yaml where
  | null
  | bool (b : Bool)
  | int (n : Int)
  | str (s : String)
  | list (xs : List Yaml)
  | map (kvs : List (String × Yaml))

/-- Python truthiness of a value (`bool(v)`). -/
def yTruthy : Yaml → Bool
  | .null => false
  | .bool b => b
  | .int n => n != 0
  | .str s => !s.isEmpty
  | .list xs => !xs.isEmpty
  | .map kvs => !kvs.isEmpty

/-- First binding of key `k` in an association list (Python dict lookup). -/
def ylookup (kvs : List (String × Yaml)) (k : String) : Option Yaml :=
  (kvs.find? (fun kv => kv.1 == k)).map (·.2)

/-- `d.get(k, dflt)` on a dict represented as an association list. -/
def dget (kvs : List (String × Yaml)) (k : String) (dflt : Yaml) : Yaml :=
  (ylookup kvs k).getD dflt

/-- `k in d` for a dict. -/
def hasKey (kvs : List (String × Yaml)) (k : String) : Bool :=
  (ylookup kvs k).isSome

/-- `y.get(k, dflt)` on an arbitrary value: raises `AttributeError` when the
receiver is not a dict (Python `.get` only exists on dicts). -/
def dictGetD (y : Yaml) (k : String) (dflt : Yaml) : Except PyErr Yaml :=
  match y with
  | .map kvs => .ok (dget kvs k dflt)
  | _ => .error .attributeError

/-- `y.items()` on an arbitrary value. -/
def dictItems (y : Yaml) : Except PyErr (List (String × Yaml)) :=
  match y with
  | .map kvs => .ok kvs
  | _ => .error .attributeError

/-- Python iteration `for x in y`: lists yield elements, strings yield
one-character strings, dicts yield their keys; other values raise. -/
def pyIter : Yaml → Except PyErr (List Yaml)
  | .list xs => .ok xs
  | .str s => .ok (s.toList.map (fun c => .str (String.mk [c])))
  | .map kvs => .ok (kvs.map (fun kv => .str kv.1))
  | _ => .error .typeError

/-- Equality of a value with a given string (Python `==` against a str). -/
def isStrEq (s : String) : Yaml → Bool
  | .str t => t == s
  | _ => false

/-- Dict assignment on the underlying association list: replace the
binding in place if the key exists, append it otherwise. -/
def assocSetY (kvs : List (String × Yaml)) (k : String) (v : Yaml) :
    List (String × Yaml) :=
  if hasKey kvs k then kvs.map (fun kv => if kv.1 == k then (k, v) else kv)
  else kvs ++ [(k, v)]

/-- `d[k] = v` on a dict; raises `TypeError` on non-dict receivers that
support `in` but not item assignment. -/
def dictSet (y : Yaml) (k : String) (v : Yaml) : Except PyErr Yaml :=
  match y with
  | .map kvs => .ok (.map (assocSetY kvs k v))
  | _ => .error .typeError

/-- Contiguous-sublist test (Python's substring `in`). -/
def listIsInfix (p : List Char) : List Char → Bool
  | [] => p.isEmpty
  | c :: rest => p.isPrefixOf (c :: rest) || listIsInfix p rest

/-- `k in y` for arbitrary `y`: dict key test, list membership by equality
with the string `k`, substring test on strings; raises `TypeError` on
non-container values. -/
def pyIn (k : String) (y : Yaml) : Except PyErr Bool :=
  match y with
  | .map kvs => .ok (hasKey kvs k)
  | .list xs => .ok (xs.any (isStrEq k))
  | .str s => .ok (listIsInfix k.toList s.toList)
  | _ => .error .typeError

/-- Monadic concatMap over `Except`, evaluating left to right (models a
Python `for` loop that appends to an accumulator and may raise). -/
def flatMapM {α β : Type} (f : α → Except PyErr (List β)) : List α → Except PyErr (List β)
  | [] => .ok []
  | x :: xs => do
      let ys ← f x
      let zs ← flatMapM f xs
      .ok (ys ++ zs)

/-! ## String helpers (character-level models of the Python operations) -/

/-- ASCII whitespace, the fragment of Python's `\s` relevant here. -/
def pyWs (c : Char) : Bool :=
  c == ' ' || c == '\t' || c == '\n' || c == '\r' || c == '\x0b' || c == '\x0c'

/-- `str.strip()` restricted to ASCII whitespace. -/
def pyStrip (s : String) : String :=
  String.mk (((s.toList.dropWhile pyWs).reverse.dropWhile pyWs).reverse)

/-- `str.lower()` (ASCII). -/
def pyLower (s : String) : String :=
  String.mk (s.toList.map Char.toLower)

/-- Fuelled worker for `pyReplace`; consumes at least one character per
step, so fuel `s.length` suffices for a non-empty pattern. -/
def replAux (p r : List Char) : Nat → List Char → List Char
  | _, [] => []
  | 0, s => s
  | fuel + 1, c :: rest =>
      if p.isPrefixOf (c :: rest) then
        r ++ replAux p r fuel ((c :: rest).drop p.length)
      else
        c :: replAux p r fuel rest

/-- `s.replace(pat, rep)` for a non-empty pattern: replace every
non-overlapping occurrence, scanning left to right. -/
def pyReplace (s pat rep : String) : String :=
  if pat.isEmpty then s
  else String.mk (replAux pat.toList rep.toList s.toList.length s.toList)

/-- `Path.stem`: the file name minus its last suffix; a leading dot alone
does not start a suffix (`.md` has stem `.md`). -/
def pyStem (name : String) : String :=
  let cs := name.toList
  match (cs.drop 1).reverse.indexOf '.' , cs with
  | _, [] => name
  | i, _ :: tl =>
      if i < tl.length then String.mk (cs.take (cs.length - 1 - i)) else name

/-! ## The frontmatter-splitting regular expression

`_split_frontmatter` matches `^---\s*\n(.*?)\n---\s*\n(.*)$` with `DOTALL`
against the document.  The matcher below reproduces the backtracking
behaviour of the pattern: the first `\s*` is greedy (longest whitespace run
first, backtracking), `(.*?)` is lazy (shortest body first), the second
`\s*` is greedy, and `(.*)$` always matches the remainder. -/

/-- Length of the maximal whitespace prefix. -/
def wsRun : List Char → Nat
  | [] => 0
  | c :: cs => if pyWs c then wsRun cs + 1 else 0

/-- All splits `s = w ++ r` with `w` whitespace, longest `w` first
(the order a greedy `\s*` tries them in). -/
def wsSplits (s : List Char) : List (List Char × List Char) :=
  ((List.range (wsRun s + 1)).reverse).map (fun k => (s.take k, s.drop k))

/-- If `s` begins with `\n---` followed by `\s*\n`, return the remainder
after the closing delimiter (the body group), choosing the longest
whitespace run. -/
def tryDelim (s : List Char) : Option (List Char) :=
  match s with
  | '\n' :: '-' :: '-' :: '-' :: rest =>
      (wsSplits rest).findSome? (fun wr =>
        match wr.2 with
        | '\n' :: b => some b
        | _ => none)
  | _ => none

/-- Lazy scan for the closing delimiter: returns the shortest frontmatter
group together with the body group.  (`tryDelim []` cannot match, so the
empty case is `none`.) -/
def findTail : List Char → Option (List Char × List Char)
  | [] => none
  | c :: rest =>
    match tryDelim (c :: rest) with
    | some b => some ([], b)
    | none => (findTail rest).map (fun fb => (c :: fb.1, fb.2))

/-- The full pattern applied to a document given as a character list. -/
def splitFrontmatterL (s : List Char) : Option (List Char × List Char) :=
  match s with
  | '-' :: '-' :: '-' :: rest =>
      (wsSplits rest).findSome? (fun wr =>
        match wr.2 with
        | '\n' :: r2 => findTail r2
        | _ => none)
  | _ => none

/-- `_split_frontmatter`: `(frontmatter?, body)`; on no match the whole
document is the body. -/
def splitFrontmatter (content : String) : Option String × String :=
  match splitFrontmatterL content.toList with
  | some (f, b) => (some (String.mk f), String.mk b)
  | none => (none, content)

/-! ## Translator (`translator.py`) -/

/-- Type of the external `yaml.safe_load`: `.error` is a `YAMLError`,
`.ok .null` is an empty document. -/
abbrev YLoad := String → Except Unit Yaml

/-- Type of the external `yaml.dump` (with `default_flow_style=False`,
`sort_keys=False`). -/
abbrev YDump := Yaml → String

/-- The frontmatter mapping produced by `translate_agent` from the parsed
frontmatter `kvs`: a `meta` group holding `name` and `description` (in that
order, when present), the `model` key dropped, all other keys kept in
order. -/
def agentAmpMap (kvs : List (String × Yaml)) : List (String × Yaml) :=
  ("meta", Yaml.map
      ((match ylookup kvs "name" with
        | some v => [("name", v)]
        | none => []) ++
       (match ylookup kvs "description" with
        | some v => [("description", v)]
        | none => []))) ::
    kvs.filter (fun kv => kv.1 != "name" && kv.1 != "description" && kv.1 != "model")

/-- `translate_agent` (translator.py:11-75).  Returns `.error e` when the
Python code would raise an uncaught exception `e`. -/
def translate_agent (yload : YLoad) (ydump : YDump) (content : String) :
    Except PyErr String :=
  match splitFrontmatter content with
  | (none, _) => .ok content
  | (some fm, body) =>
    match yload fm with
    | .error _ => .ok content
    | .ok data =>
      match data with
      | .null => .ok content
      | .map kvs =>
          if hasKey kvs "meta" then .ok content
          else .ok ("---\n" ++ ydump (.map (agentAmpMap kvs)) ++ "---\n" ++ body)
      | .str s =>
          -- `"meta" in data` is a substring test on strings; the later
          -- `data.pop("model", None)` raises AttributeError.
          if listIsInfix "meta".toList s.toList then .ok content
          else .error .attributeError
      | .list xs =>
          -- membership by equality; `data.pop("model", None)` raises
          -- TypeError on lists.
          if xs.any (fun e => match e with | .str s => s == "meta" | _ => false) then
            .ok content
          else .error .typeError
      | .int _ => .error .typeError
      | .bool _ => .error .typeError

/-- Result dict of `translate_command`. -/
structure CmdResult where
  description : Yaml
  disable_model_invocation : Yaml
  prompt : String

/-- `translate_command` (translator.py:136-167). -/
def translate_command (yload : YLoad) (content : String) : Except PyErr CmdResult :=
  match splitFrontmatter content with
  | (fmOpt, body) =>
    let base : CmdResult := ⟨.str "", .bool false, pyStrip body⟩
    match fmOpt with
    | none => .ok base
    | some fm =>
      -- `if frontmatter:` — an empty frontmatter string is falsy.
      if fm.isEmpty then .ok base
      else
        match yload fm with
        | .error _ => .ok base
        | .ok v =>
          let data := if yTruthy v then v else .map []
          match data with
          | .map kvs =>
              .ok ⟨dget kvs "description" (.str ""),
                   dget kvs "disable-model-invocation" (.bool false),
                   pyStrip body⟩
          | _ => .error .attributeError

/-- The fixed source→target event-name table of `translate_hooks`. -/
def event_map : List (String × String) :=
  [("SessionStart", "session_start"),
   ("PreToolUse", "pre_tool_call"),
   ("PostToolUse", "post_tool_call"),
   ("Stop", "session_end"),
   ("Notification", "notification")]

/-- `event_map.get(cc_event, cc_event.lower())`. -/
def ampEvent (e : String) : String :=
  (((event_map.find? (fun p => p.1 == e)).map (·.2)).getD (pyLower e))

/-- `_translate_hook_command` (translator.py:186-197): substitute the
plugin-root placeholder (the `plugin_root` argument is unused in the
source as well). -/
def translate_hook_command (command : String) (_plugin_root target_root : String) :
    String :=
  let c := pyReplace command "$\x7bCLAUDE_PLUGIN_ROOT\x7d" target_root
  pyReplace c ("\"$\x7bCLAUDE_PLUGIN_ROOT\x7d/") ("\"" ++ target_root ++ "/")

/-- One output entry of `translate_hooks`. -/
structure ShellHook where
  event : String
  command : String

/-- Rendering of an output entry as the dict the Python code appends. -/
def shellHookY (h : ShellHook) : Yaml :=
  .map [("event", .str h.event), ("command", .str h.command)]

/-- Translation of one `{type, command}` entry. -/
def transHook (ampEv plugin_root target : String) (hook : Yaml) :
    Except PyErr (List ShellHook) :=
  match dictGetD hook "type" .null with
  | .error e => .error e
  | .ok ty =>
    if (match ty with | .str s => s == "command" | _ => false) then
      match dictGetD hook "command" (.str "") with
      | .error e => .error e
      | .ok (.str c) => .ok [⟨ampEv, translate_hook_command c plugin_root target⟩]
      | .ok _ => .error .attributeError
    else .ok []

/-- Translation of one handler group (`handler.get("hooks", [])`). -/
def transHandler (ampEv plugin_root target : String) (handler : Yaml) :
    Except PyErr (List ShellHook) :=
  match dictGetD handler "hooks" (.list []) with
  | .error e => .error e
  | .ok hl =>
    match pyIter hl with
    | .error e => .error e
    | .ok hooks => flatMapM (transHook ampEv plugin_root target) hooks

/-- `translate_hooks` (translator.py:78-133), over the parsed `hooks.json`
document. -/
def translate_hooks (hooks_config : List (String × Yaml))
    (plugin_root target_root : String) : Except PyErr Yaml :=
  match dictItems (dget hooks_config "hooks" (.map [])) with
  | .error e => .error e
  | .ok items =>
    match flatMapM (fun (p : String × Yaml) =>
        match pyIter p.2 with
        | .error e => .error e
        | .ok handlers =>
          flatMapM (transHandler (ampEvent p.1) plugin_root target_root) handlers) items with
    | .error e => .error e
    | .ok allHooks =>
      .ok (if allHooks.isEmpty then .map []
           else .map [("shell_hooks", .list (allHooks.map shellHookY))])

/-! ## A concrete miniature YAML loader and dumper

`yaml.safe_load` / `yaml.dump` are external library functions; the
translator theorems are parametric in them.  For concrete witnesses we use
a small loader/dumper pair that agrees with PyYAML on the fragment of
documents exercised: plain non-numeric scalars, `true`/`false`, flat
`key: value` mappings, and one level of two-space-indented nesting. -/

/-- Split a character list into lines at `\n`. -/
def linesL : List Char → List (List Char)
  | [] => [[]]
  | '\n' :: rest => [] :: linesL rest
  | c :: rest =>
    match linesL rest with
    | [] => [[c]]
    | l :: ls => (c :: l) :: ls

/-- Split a line at the first `": "` separator. -/
def findColonSpace : List Char → Option (List Char × List Char)
  | [] => none
  | ':' :: ' ' :: rest => some ([], rest)
  | c :: rest => (findColonSpace rest).map (fun p => (c :: p.1, p.2))

/-- Recognize `key: value` (second component `some value`) or a trailing
`key:` (second component `none`). -/
def splitKVL (cs : List Char) : Option (String × Option String) :=
  match findColonSpace cs with
  | some (k, v) => some (String.mk k, some (String.mk v))
  | none =>
    match cs.reverse with
    | ':' :: krev => some (String.mk krev.reverse, none)
    | _ => none

/-- Scalars of the mini fragment. -/
def parseScalarMini (s : String) : Yaml :=
  if s == "true" then .bool true
  else if s == "false" then .bool false
  else .str s

/-- Does a line start with the two-space nesting indent? -/
def isIndented : List Char → Bool
  | ' ' :: ' ' :: _ => true
  | _ => false

/-- Parse a flat block of `key: value` lines. -/
def parseFlat : List (List Char) → Except Unit (List (String × Yaml))
  | [] => .ok []
  | l :: rest =>
    match splitKVL l with
    | some (k, some v) => do
        let t ← parseFlat rest
        .ok ((k, parseScalarMini v) :: t)
    | _ => .error ()

/-- Parse a top-level block, allowing one level of indented nesting under a
bare `key:` line.  Fuelled; each step consumes at least one line. -/
def parseBlock : Nat → List (List Char) → Except Unit (List (String × Yaml))
  | _, [] => .ok []
  | 0, _ => .error ()
  | fuel + 1, l :: rest =>
    if isIndented l then .error ()
    else
      match splitKVL l with
      | some (k, some v) => do
          let t ← parseBlock fuel rest
          .ok ((k, parseScalarMini v) :: t)
      | some (k, none) =>
          let sub := rest.takeWhile isIndented
          let rest2 := rest.dropWhile isIndented
          do
            let subkvs ← parseFlat (sub.map (List.drop 2))
            let t ← parseBlock fuel rest2
            .ok ((k, if sub.isEmpty then Yaml.null else .map subkvs) :: t)
      | none => .error ()

/-- Miniature `yaml.safe_load`: empty document is `None`, a single plain
line is a scalar, otherwise a block mapping. -/
def miniYamlLoad (s : String) : Except Unit Yaml :=
  let ls := (linesL s.toList).filter (fun l => !l.isEmpty)
  match ls with
  | [] => .ok .null
  | [l] =>
    match splitKVL l with
    | none => if isIndented l then .error () else .ok (parseScalarMini (String.mk l))
    | some _ => (parseBlock 1 [l]).map .map
  | _ => (parseBlock ls.length ls).map .map

/-- Scalar rendering of the miniature dumper. -/
def dumpScalarMini : Yaml → String
  | .str s => s
  | .int n => toString n
  | .bool true => "true"
  | .bool false => "false"
  | .null => "null"
  | _ => ""

/-- Miniature `yaml.dump` (block style, insertion order, one nesting
level), ending in a newline as PyYAML does. -/
def miniYamlDump (y : Yaml) : String :=
  match y with
  | .map kvs =>
      String.join (kvs.map (fun kv =>
        match kv.2 with
        | .map sub =>
            kv.1 ++ ":\n" ++
              String.join (sub.map (fun kv2 =>
                "  " ++ kv2.1 ++ ": " ++ dumpScalarMini kv2.2 ++ "\n"))
        | v => kv.1 ++ ": " ++ dumpScalarMini v ++ "\n"))
  | v => dumpScalarMini v ++ "\n"

/-! ## C5 — hook translation -/

/-- A `{type, command}` hook entry as a parsed-JSON value. -/
def mkHook (p : String × String) : Yaml :=
  .map [("type", .str p.1), ("command", .str p.2)]

/-- A handler group holding a list of hook entries. -/
def mkHandler (hs : List (String × String)) : Yaml :=
  .map [("hooks", .list (hs.map mkHook))]

/-- A whole hooks-configuration document: `{"hooks": {event: [handler…]}}`. -/
def mkHooksConfig (events : List (String × List (List (String × String)))) :
    List (String × Yaml) :=
  [("hooks", .map (events.map (fun e => (e.1, .list (e.2.map mkHandler)))))]

/-- The output described by the claim: one entry per command-type hook, in
order, with the event name mapped through the fixed table (unknown names
lowercased) and the plugin-root placeholder substituted. -/
def hooksSpecList (events : List (String × List (List (String × String))))
    (plugin_root target : String) : List ShellHook :=
  events.flatMap (fun e =>
    e.2.flatMap (fun hs =>
      (hs.filter (fun hk => hk.1 == "command")).map (fun hk =>
        ⟨ampEvent e.1, translate_hook_command hk.2 plugin_root target⟩)))

/-! ## C6 — idempotence of agent translation -/

/-- Stability of the loader/dumper pair on the documents this input can
produce: when translation actually rewrites the frontmatter, splitting the
rebuilt document recovers the dumped mapping and re-loading it yields that
mapping back.  (These are facts about PyYAML round-trips, which are
external to the repository.) -/
def RetransStable (yload : YLoad) (ydump : YDump) (x : String) : Prop :=
  ∀ fm body kvs, splitFrontmatter x = (some fm, body) →
    yload fm = .ok (.map kvs) → hasKey kvs "meta" = false →
    ∃ fm2,
      splitFrontmatter ("---\n" ++ ydump (.map (agentAmpMap kvs)) ++ "---\n" ++ body)
        = (some fm2, body) ∧
      yload fm2 = .ok (.map (agentAmpMap kvs))

/-! ## Filesystem model

A filesystem snapshot is a finite list of `(path, node)` entries; paths are
lists of name segments (canonical — `Path.resolve` is the identity here).
A file's content is either plain text or, for the files the code reads with
`json.load`, the outcome of that parse (`jsonDoc`); the JSON text itself is
abstracted by its parse result.  Symbolic links are created only by the
installer inside the target tree; reading through a link is not modelled.
Lookups take the first matching entry, so duplicate paths behave as if only
the first occurred. -/

abbrev FPath := List String

/-- Content of a regular file, as the code observes it. -/
inductive FData where
  | text (s : String)
  | jsonDoc (d : Except Unit Yaml)

/-- A filesystem node. -/
inductive FNode where
  | dir
  | file (d : FData)
  | symlink (target : FPath)

abbrev FS := List (FPath × FNode)

def fsGet (fs : FS) (p : FPath) : Option FNode :=
  (fs.find? (fun e => e.1 == p)).map (·.2)

/-- `Path.exists()` (a resolvable symlink also exists). -/
def fsExists (fs : FS) (p : FPath) : Bool := (fsGet fs p).isSome

/-- `Path.is_dir()`. -/
def fsIsDir (fs : FS) (p : FPath) : Bool :=
  match fsGet fs p with | some .dir => true | _ => false

/-- Names of the immediate children of `p` present in the snapshot. -/
def childNames (fs : FS) (p : FPath) : List String :=
  (fs.filterMap (fun e =>
    if e.1.length == p.length + 1 && e.1.take p.length == p then
      e.1.getLast?
    else none)).eraseDups

/-- Codepoint-wise lexicographic order on strings (Python string `<=`). -/
def lexLe : List Char → List Char → Bool
  | [], _ => true
  | _ :: _, [] => false
  | a :: as, b :: bs =>
      if a.val < b.val then true
      else if b.val < a.val then false
      else lexLe as bs

def strLe (a b : String) : Bool := lexLe a.toList b.toList

/-- Insertion into a sorted list. -/
def insortStr (a : String) : List String → List String
  | [] => [a]
  | b :: rest => if strLe a b then a :: b :: rest else b :: insortStr a rest

/-- Insertion sort — the model of Python's `sorted` on same-directory
paths (which compares path strings, i.e. names here). -/
def isortStr : List String → List String
  | [] => []
  | a :: rest => insortStr a (isortStr rest)

/-- `dir.glob("*" + ext)`: children (of any node kind) whose name ends in
`ext`; yields nothing when `dir` is not a directory, as `pathlib` does. -/
def globExt (fs : FS) (dirp : FPath) (ext : String) : List String :=
  (childNames fs dirp).filter (fun n => ext.toList.isSuffixOf n.toList)

/-- `open(p)` followed by `json.load`: a `JSONDecodeError` for unparsable
content, an `OSError` for directories/links/missing files. -/
def readJson (fs : FS) (p : FPath) : Except PyErr Yaml :=
  match fsGet fs p with
  | some (.file (.jsonDoc (.ok v))) => .ok v
  | some (.file (.jsonDoc (.error _))) => .error .jsonError
  | some (.file (.text _)) => .error .jsonError
  | some .dir => .error .osError
  | some (.symlink _) => .error .osError
  | none => .error .osError

/-- `p.read_text()`. -/
def readText (fs : FS) (p : FPath) : Except PyErr String :=
  match fsGet fs p with
  | some (.file (.text s)) => .ok s
  | some (.file (.jsonDoc _)) => .error .osError
  | some .dir => .error .osError
  | some (.symlink _) => .error .osError
  | none => .error .osError

/-! ## Parser (`parser.py`) -/

/-- `PluginManifest` — all fields hold whatever values the JSON document
supplied (Python performs no type check on them). -/
structure PluginManifest where
  name : Yaml
  version : Yaml
  description : Yaml
  author : Yaml
  homepage : Yaml
  repository : Yaml
  license : Yaml
  keywords : Yaml

/-- `PluginManifest.from_dict` (parser.py:24-36); `.get` on a non-dict
JSON document raises `AttributeError`. -/
def PluginManifest.from_dict (data : Yaml) : Except PyErr PluginManifest :=
  match data with
  | .map kvs =>
      .ok ⟨dget kvs "name" (.str "unknown"),
           dget kvs "version" (.str "0.0.0"),
           dget kvs "description" (.str ""),
           dget kvs "author" .null,
           dget kvs "homepage" .null,
           dget kvs "repository" .null,
           dget kvs "license" .null,
           dget kvs "keywords" (.list [])⟩
  | _ => .error .attributeError

/-- The manifest location: the metadata subdirectory first, falling back
to the root-level file (the mutable `manifest_path` of the source). -/
def manifestPath (fs : FS) (root : FPath) : FPath :=
  if fsExists fs (root ++ [".claude-plugin", "plugin.json"]) then
    root ++ [".claude-plugin", "plugin.json"]
  else root ++ ["plugin.json"]

/-- `_parse_manifest` (parser.py:127-141): try the metadata subdirectory,
fall back to the root-level file; missing manifest is the `InvalidPlugin`
(`ValueError`) case. -/
def parse_manifest (fs : FS) (root : FPath) : Except PyErr PluginManifest :=
  if fsExists fs (manifestPath fs root) then
    match readJson fs (manifestPath fs root) with
    | .error e => .error e
    | .ok d => PluginManifest.from_dict d
  else .error .valueError

/-- `_discover_skills` (parser.py:144-157): immediate subdirectories of
`skills/` that contain a `SKILL.md`, sorted; `iterdir` on an existing
non-directory raises. -/
def discover_skills (fs : FS) (root : FPath) : Except PyErr (List FPath) :=
  if !fsExists fs (root ++ ["skills"]) then .ok []
  else if !fsIsDir fs (root ++ ["skills"]) then .error .osError
  else .ok ((isortStr ((childNames fs (root ++ ["skills"])).filter (fun n =>
      fsIsDir fs (root ++ ["skills", n]) &&
      fsExists fs (root ++ ["skills", n, "SKILL.md"])))).map
    (fun n => root ++ ["skills", n]))

/-- `_discover_agents` (parser.py:160-166). -/
def discover_agents (fs : FS) (root : FPath) : Except PyErr (List FPath) :=
  if !fsExists fs (root ++ ["agents"]) then .ok []
  else .ok ((isortStr (globExt fs (root ++ ["agents"]) ".md")).map
    (fun n => root ++ ["agents", n]))

/-- `_discover_commands` (parser.py:169-175). -/
def discover_commands (fs : FS) (root : FPath) : Except PyErr (List FPath) :=
  if !fsExists fs (root ++ ["commands"]) then .ok []
  else .ok ((isortStr (globExt fs (root ++ ["commands"]) ".md")).map
    (fun n => root ++ ["commands", n]))

/-- `_discover_hooks` (parser.py:178-195): optional `hooks.json` (a JSON
`null` document leaves the config `None`), plus all `*.sh`, `*.py`,
`*.cmd` scripts, sorted. -/
def discover_hooks (fs : FS) (root : FPath) :
    Except PyErr (Option Yaml × List FPath) :=
  if !fsExists fs (root ++ ["hooks"]) then .ok (none, [])
  else
    match (if fsExists fs (root ++ ["hooks", "hooks.json"]) then
             (readJson fs (root ++ ["hooks", "hooks.json"])).map (fun v =>
               match v with | .null => none | v => some v)
           else .ok none) with
    | .error e => .error e
    | .ok cfg =>
        .ok (cfg, (isortStr (globExt fs (root ++ ["hooks"]) ".sh" ++
               globExt fs (root ++ ["hooks"]) ".py" ++
               globExt fs (root ++ ["hooks"]) ".cmd")).map
          (fun n => root ++ ["hooks", n]))

/-- `_load_json_config` (parser.py:198-204); a JSON `null` document and a
missing file both leave the config `None`. -/
def load_json_config (fs : FS) (p : FPath) : Except PyErr (Option Yaml) :=
  if !fsExists fs p then .ok none
  else
    match readJson fs p with
    | .error e => .error e
    | .ok v => .ok (match v with | .null => none | v => some v)

/-- `ParsedPlugin` (parser.py:39-83). -/
structure ParsedPlugin where
  root : FPath
  manifest : PluginManifest
  skills : List FPath
  agents : List FPath
  commands : List FPath
  hooks_config : Option Yaml
  hooks_scripts : List FPath
  mcp_config : Option Yaml
  lsp_config : Option Yaml

def ParsedPlugin.has_skills (p : ParsedPlugin) : Bool := !p.skills.isEmpty
def ParsedPlugin.has_agents (p : ParsedPlugin) : Bool := !p.agents.isEmpty
def ParsedPlugin.has_commands (p : ParsedPlugin) : Bool := !p.commands.isEmpty
def ParsedPlugin.has_hooks (p : ParsedPlugin) : Bool := p.hooks_config.isSome
def ParsedPlugin.has_mcp (p : ParsedPlugin) : Bool := p.mcp_config.isSome

/-- The dict returned by `ParsedPlugin.summary` (parser.py:73-83). -/
structure Summary where
  name : Yaml
  version : Yaml
  skills : Nat
  agents : Nat
  commands : Nat
  has_hooks : Bool
  has_mcp : Bool

def ParsedPlugin.summary (p : ParsedPlugin) : Summary :=
  ⟨p.manifest.name, p.manifest.version, p.skills.length, p.agents.length,
   p.commands.length, p.has_hooks, p.has_mcp⟩

/-- `parse_plugin` (parser.py:86-124).  `InvalidPlugin` is `ValueError`
(`.valueError`); a present-but-unparsable JSON document raises the
distinct `json.JSONDecodeError` (`.jsonError`). -/
def parse_plugin (fs : FS) (plugin_path : FPath) : Except PyErr ParsedPlugin :=
  if !fsIsDir fs plugin_path then .error .valueError
  else
    match parse_manifest fs plugin_path with
    | .error e => .error e
    | .ok manifest =>
      match discover_skills fs plugin_path with
      | .error e => .error e
      | .ok skills =>
        match discover_agents fs plugin_path with
        | .error e => .error e
        | .ok agents =>
          match discover_commands fs plugin_path with
          | .error e => .error e
          | .ok commands =>
            match discover_hooks fs plugin_path with
            | .error e => .error e
            | .ok hooksPair =>
              match load_json_config fs (plugin_path ++ [".mcp.json"]) with
              | .error e => .error e
              | .ok mcp =>
                match load_json_config fs (plugin_path ++ [".lsp.json"]) with
                | .error e => .error e
                | .ok lsp =>
                    .ok ⟨plugin_path, manifest, skills, agents, commands,
                         hooksPair.1, hooksPair.2, mcp, lsp⟩

/-! ## Concrete snapshots used by witnesses -/

/-- A minimal valid plugin: a directory holding only a root-level
`plugin.json`. -/
def fsMin : FS :=
  [(["p"], .dir),
   (["p", "plugin.json"], .file (.jsonDoc (.ok (.map [("name", Yaml.str "demo")]))))]

/-- The manifest `fsMin`'s `plugin.json` parses to. -/
def mMin : PluginManifest :=
  ⟨.str "demo", .str "0.0.0", .str "", .null, .null, .null, .null, .list []⟩

/-- The plugin of the C9 property: manifest, one skill, one agent, one
command, no hooks and no MCP config. -/
def fsOneEach : FS :=
  [(["p"], .dir),
   (["p", ".claude-plugin"], .dir),
   (["p", ".claude-plugin", "plugin.json"], .file (.jsonDoc (.ok (.map
      [("name", Yaml.str "test-plugin"), ("version", Yaml.str "1.0.0"),
       ("description", Yaml.str "A test plugin")])))),
   (["p", "skills"], .dir),
   (["p", "skills", "test-skill"], .dir),
   (["p", "skills", "test-skill", "SKILL.md"],
     .file (.text "---\nname: test-skill\n---\n\n# Test Skill\n")),
   (["p", "agents"], .dir),
   (["p", "agents", "test-agent.md"],
     .file (.text "---\nname: test-agent\n---\n\nYou are a test agent.\n")),
   (["p", "commands"], .dir),
   (["p", "commands", "test-cmd.md"],
     .file (.text "---\ndescription: Test command\n---\n\nDo something.\n"))]


/-! ## Registry store (`registry.py`)

The on-disk `plugins.yaml` is modelled by its semantic content: `none` is a
missing file; `.malformed` is a file whose YAML read (or whose `installed`
mapping access) raises; `.wf entries` is a readable registry holding the
`installed` name-to-record mapping.  A record stores the fields of
`PluginInfo.to_dict`; the path-to-string serialization round-trip is
abstracted by keeping the path structured. -/

/-- A registry record (`PluginInfo`, registry.py:13-44, minus the `name`
used as the mapping key). -/
structure PluginRec where
  source : String
  version : Yaml
  installed_at : String
  install_path : FPath
  components : List (String × Yaml)

/-- The registry file. -/
inductive RegDoc where
  | malformed
  | wf (entries : List (String × PluginRec))

/-- Upsert into an association list: replace the binding in place if the
key exists (dict assignment), append otherwise. -/
def upsert {α : Type} (es : List (String × α)) (k : String) (v : α) :
    List (String × α) :=
  if es.any (fun e => e.1 == k) then
    es.map (fun e => if e.1 == k then (k, v) else e)
  else es ++ [(k, v)]

/-- `get_installed_plugins` (registry.py:54-72). -/
def get_installed_plugins : Option RegDoc → Except PyErr (List (String × PluginRec))
  | none => .ok []
  | some .malformed => .error .yamlError
  | some (.wf es) => .ok es

/-- `register_plugin` (registry.py:75-101): read-modify-write upsert by
name; creates the file when absent. -/
def register_plugin (name : String) (rec : PluginRec) :
    Option RegDoc → Except PyErr (Option RegDoc)
  | none => .ok (some (.wf [(name, rec)]))
  | some .malformed => .error .yamlError
  | some (.wf es) => .ok (some (.wf (upsert es name rec)))

/-- `unregister_plugin` (registry.py:104-131). -/
def unregister_plugin (name : String) :
    Option RegDoc → Except PyErr (Bool × Option RegDoc)
  | none => .ok (false, none)
  | some .malformed => .error .yamlError
  | some (.wf es) =>
      if es.any (fun e => e.1 == name) then
        .ok (true, some (.wf (es.filter (fun e => e.1 != name))))
      else .ok (false, some (.wf es))

/-- `create_plugin_info` (registry.py:134-166); `installed_at` is the
caller-supplied clock reading `now`. -/
def create_plugin_info (source : String) (version : Yaml) (install_path : FPath)
    (skills agents commands : List String) (hasHooks hasMcp : Bool)
    (now : String) : PluginRec :=
  ⟨source, version, now, install_path,
    (if !skills.isEmpty then [("skills", Yaml.list (skills.map .str))] else []) ++
    (if !agents.isEmpty then [("agents", Yaml.list (agents.map .str))] else []) ++
    (if !commands.isEmpty then [("commands", Yaml.list (commands.map .str))] else []) ++
    (if hasHooks then [("hooks", Yaml.bool true)] else []) ++
    (if hasMcp then [("mcp", Yaml.bool true)] else [])⟩

/-! ## Shared settings and MCP documents -/

/-- The `settings.yaml` file: absent, unreadable, or the `yaml.safe_load`
result. -/
inductive SetDoc where
  | malformed
  | wf (y : Yaml)

/-- The `mcp.json` file. -/
inductive McpDoc where
  | malformed
  | wf (y : Yaml)

/-- `settings["config"]` — subscript read; `KeyError`/`TypeError` as in
Python. -/
def pyIndex (y : Yaml) (k : String) : Except PyErr Yaml :=
  match y with
  | .map kvs =>
      match ylookup kvs k with
      | some v => .ok v
      | none => .error .keyError
  | _ => .error .typeError

/-- Python string of an absolute path under the target home (segments
joined by `/`). -/
def pathStr (p : FPath) : String := String.intercalate "/" p

/-- `list.remove(s)`: drop the first element equal to the string `s`. -/
def removeFirstStr (s : String) : List Yaml → List Yaml
  | [] => []
  | y :: rest =>
    match y with
    | .str t => if t == s then rest else .str t :: removeFirstStr s rest
    | y => y :: removeFirstStr s rest

/-- `_register_skills_directory` on the normalized (`or {}`) settings
value (installer.py:338-376): ensure `config.skills.dirs` exists, append
the directory if not already present, write back. -/
def regSkillsDirCore (sdir : String) (s0 : Yaml) : Except PyErr Yaml :=
  match pyIn "config" s0 with
  | .error e => .error e
  | .ok c1 =>
    match (if c1 then .ok s0 else dictSet s0 "config" (.map [])) with
    | .error e => .error e
    | .ok s1 =>
      match pyIndex s1 "config" with
      | .error e => .error e
      | .ok cfg =>
        match pyIn "skills" cfg with
        | .error e => .error e
        | .ok c2 =>
          match (if c2 then (.ok s1 : Except PyErr Yaml) else
                   match dictSet cfg "skills" (.map []) with
                   | .error e => .error e
                   | .ok cfg' => dictSet s1 "config" cfg') with
          | .error e => .error e
          | .ok s2 =>
            match pyIndex s2 "config" with
            | .error e => .error e
            | .ok cfg2 =>
              match pyIndex cfg2 "skills" with
              | .error e => .error e
              | .ok sk =>
                match pyIn "dirs" sk with
                | .error e => .error e
                | .ok c3 =>
                  match (if c3 then (.ok s2 : Except PyErr Yaml) else
                           match dictSet sk "dirs" (.list []) with
                           | .error e => .error e
                           | .ok sk' =>
                             match dictSet cfg2 "skills" sk' with
                             | .error e => .error e
                             | .ok cfg' => dictSet s2 "config" cfg') with
                  | .error e => .error e
                  | .ok s3 =>
                    match pyIndex s3 "config" with
                    | .error e => .error e
                    | .ok cfg3 =>
                      match pyIndex cfg3 "skills" with
                      | .error e => .error e
                      | .ok sk3 =>
                        match pyIndex sk3 "dirs" with
                        | .error e => .error e
                        | .ok dirs =>
                          match pyIn sdir dirs with
                          | .error e => .error e
                          | .ok true => .ok s3
                          | .ok false =>
                            match dirs with
                            | .list xs =>
                              match dictSet sk3 "dirs" (.list (xs ++ [.str sdir])) with
                              | .error e => .error e
                              | .ok sk' =>
                                match dictSet cfg3 "skills" sk' with
                                | .error e => .error e
                                | .ok cfg' => dictSet s3 "config" cfg'
                            | _ => .error .attributeError

/-- The settings value the installer operates on: `{}` for a missing
file, the `or {}` normalization of the loaded document otherwise. -/
def settingsNorm : Option SetDoc → Yaml
  | some (.wf y) => if yTruthy y then y else .map []
  | _ => .map []

/-- `_register_skills_directory`: load (`{}` when absent, `or {}` on falsy
loads, raise on unreadable), run the core update, write back. -/
def regSkillsDir (sdir : String) (doc : Option SetDoc) :
    Except PyErr (Option SetDoc) :=
  match doc with
  | some .malformed => .error .yamlError
  | _ => (regSkillsDirCore sdir (settingsNorm doc)).map (fun y' => some (.wf y'))

/-- `_unregister_skills_directory` (installer.py:379-399): best-effort
removal of the directory from `config.skills.dirs`; no write when the file
is absent or the entry is not present. -/
def unregSkillsDir (sdir : String) : Option SetDoc → Except PyErr (Option SetDoc)
  | none => .ok none
  | some .malformed => .error .yamlError
  | some (.wf y) =>
    match dictGetD (if yTruthy y then y else .map []) "config" (.map []) with
    | .error e => .error e
    | .ok cfg =>
      match dictGetD cfg "skills" (.map []) with
      | .error e => .error e
      | .ok sk =>
        match dictGetD sk "dirs" (.list []) with
        | .error e => .error e
        | .ok dirs =>
          match pyIn sdir dirs with
          | .error e => .error e
          | .ok false => .ok (some (.wf y))
          | .ok true =>
            match dirs with
            | .list xs =>
              -- membership implies the nesting chain is actually present,
              -- so the in-place list mutation is visible in the document
              match dictSet sk "dirs" (.list (removeFirstStr sdir xs)) with
              | .error e => .error e
              | .ok sk' =>
                match dictSet cfg "skills" sk' with
                | .error e => .error e
                | .ok cfg' =>
                  match dictSet (if yTruthy y then y else .map []) "config" cfg' with
                  | .error e => .error e
                  | .ok s' => .ok (some (.wf s'))
            | _ => .error .attributeError

/-- `d.update(ps)` for dicts (used by the MCP merge). -/
def dictUpdate (d ps : Yaml) : Except PyErr Yaml :=
  match d, ps with
  | .map kvs, .map pkvs =>
      .ok (.map (pkvs.foldl (fun acc kv =>
        if acc.any (fun e => e.1 == kv.1) then
          acc.map (fun e => if e.1 == kv.1 then (kv.1, kv.2) else e)
        else acc ++ [(kv.1, kv.2)]) kvs))
  | .map _, _ => .error .typeError
  | _, _ => .error .attributeError

/-- `_install_mcp_config` (installer.py:310-335): merge the plugin's
`mcpServers` into the shared document, plugin entries overwriting
same-named existing entries. -/
def install_mcp_config (cfg : Option Yaml) (doc : Option McpDoc) :
    Except PyErr (Option McpDoc) :=
  match cfg with
  | none => .ok doc
  | some v =>
    if !yTruthy v then .ok doc
    else
      match (match doc with
             | none => (.ok (.map []) : Except PyErr Yaml)
             | some .malformed => .error .jsonError
             | some (.wf y) => .ok y) with
      | .error e => .error e
      | .ok existing =>
        match pyIn "mcpServers" existing with
        | .error e => .error e
        | .ok c =>
          match (if c then (.ok existing : Except PyErr Yaml)
                 else dictSet existing "mcpServers" (.map [])) with
          | .error e => .error e
          | .ok ex1 =>
            match dictGetD v "mcpServers" (.map []) with
            | .error e => .error e
            | .ok ps =>
              match pyIndex ex1 "mcpServers" with
              | .error e => .error e
              | .ok cur =>
                match dictUpdate cur ps with
                | .error e => .error e
                | .ok merged =>
                  match dictSet ex1 "mcpServers" merged with
                  | .error e => .error e
                  | .ok ex2 => .ok (some (.wf ex2))

/-! ## Installer (`installer.py`)

State of the target home: the file tree under `~/.amplifier` (paths
relative to the home) plus the three shared documents, which live at fixed
names and are modelled by their semantic content rather than as tree
entries.  Each operation returns its Python outcome together with the state
as left behind (partial effects before an uncaught exception persist). -/

structure AmpState where
  home : FS
  registry : Option RegDoc
  settings : Option SetDoc
  mcp : Option McpDoc

/-- All non-empty prefixes of a path, shortest first. -/
def pathPrefixes (p : FPath) : List FPath :=
  (List.range p.length).map (fun i => p.take (i + 1))

/-- `Path.mkdir(parents=True, exist_ok=True)`: create missing directories
along the path; an existing non-directory anywhere raises. -/
def mkdirP (fs : FS) (p : FPath) : Except PyErr FS :=
  (pathPrefixes p).foldlM (fun acc q =>
    match fsGet acc q with
    | none => .ok ((q, FNode.dir) :: acc)
    | some .dir => .ok acc
    | some _ => .error .osError) fs

/-- `shutil.rmtree`: remove a directory subtree; raises on files, links
and missing paths. -/
def rmtree (fs : FS) (p : FPath) : Except PyErr FS :=
  match fsGet fs p with
  | some .dir => .ok (fs.filter (fun e => !(p.isPrefixOf e.1)))
  | some _ => .error .osError
  | none => .error .osError

/-- `Path.unlink` of a symlink entry (and lookups of removed paths). -/
def fsRemoveEntry (fs : FS) (p : FPath) : FS :=
  fs.filter (fun e => e.1 != p)

/-- `shutil.copytree src dst`: copy the whole subtree under `srcRoot` of
the source snapshot to `dstRoot` of the target tree; the source must be a
directory and the destination must not exist. -/
def copyTree (src : FS) (srcRoot : FPath) (dst : FS) (dstRoot : FPath) :
    Except PyErr FS :=
  match fsGet src srcRoot with
  | some .dir =>
      if fsExists dst dstRoot then .error .osError
      else
        .ok ((src.filterMap (fun e =>
          if srcRoot.isPrefixOf e.1 then
            some (dstRoot ++ e.1.drop srcRoot.length, e.2)
          else none)) ++ dst)
  | _ => .error .osError

/-- `shutil.copy2` of a single file (overwriting an existing file). -/
def copyFile (src : FS) (sp : FPath) (dst : FS) (dp : FPath) : Except PyErr FS :=
  match fsGet src sp with
  | some (.file d) => .ok ((dp, FNode.file d) :: dst.filter (fun e => e.1 != dp))
  | _ => .error .osError

/-- `target.write_text(s)` into a fresh location. -/
def writeFile (fs : FS) (p : FPath) (s : String) : FS :=
  (p, FNode.file (.text s)) :: fs.filter (fun e => e.1 != p)

/-- `skills_target.symlink_to(dest)` after the call site removed any
previous entry. -/
def addSymlink (fs : FS) (p : FPath) (target : FPath) : FS :=
  (p, FNode.symlink target) :: fs

/-- `InstallResult` (installer.py:21-44). -/
structure InstallResult where
  success : Bool
  plugin_name : String
  message : String
  installed_components : List (String × Yaml)
  warnings : List String

/-- `_resolve_source` (installer.py:206-223) for local sources; remote
references (the git-clone helper) are the out-of-scope subprocess wrapper,
whose failures the caller catches like any other resolution failure. -/
def resolve_source (fs : FS) (source : FPath) : Except PyErr FPath :=
  if fsExists fs source then .ok source else .error .valueError

/-- `_install_skills` (installer.py:248-268): copy the skills subtree into
the private install directory, then replace the discovery symlink. -/
def installSkills (fs : FS) (plugin : ParsedPlugin) (n : String) (home : FS) :
    Except PyErr (List String) × FS :=
  match (if fsExists home ["plugins", n, "skills"] then
           rmtree home ["plugins", n, "skills"]
         else .ok home) with
  | .error e => (.error e, home)
  | .ok h1 =>
    match copyTree fs (plugin.root ++ ["skills"]) h1 ["plugins", n, "skills"] with
    | .error e => (.error e, h1)
    | .ok h2 =>
      match mkdirP h2 ["skills"] with
      | .error e => (.error e, h2)
      | .ok h3 =>
        match (match fsGet h3 ["skills", n] with
               | some (.symlink _) =>
                   (.ok (fsRemoveEntry h3 ["skills", n]) : Except PyErr FS)
               | some .dir => rmtree h3 ["skills", n]
               | some (.file _) => rmtree h3 ["skills", n]
               | none => .ok h3) with
        | .error e => (.error e, h3)
        | .ok h4 =>
          (.ok (plugin.skills.map (fun p => p.getLastD "")),
           addSymlink h4 ["skills", n] ["plugins", n, "skills"])

/-- The per-file loop of `_install_agents`. -/
def installAgentsGo (yload : YLoad) (ydump : YDump) (fs : FS) (n : String) :
    List FPath → FS → Except PyErr (List String) × FS
  | [], h => (.ok [], h)
  | ap :: rest, h =>
    match readText fs ap with
    | .error e => (.error e, h)
    | .ok content =>
      match translate_agent yload ydump content with
      | .error e => (.error e, h)
      | .ok translated =>
        match installAgentsGo yload ydump fs n rest
            (writeFile h ["agents", n, ap.getLastD ""] translated) with
        | (.error e, h2) => (.error e, h2)
        | (.ok names, h2) => (.ok (pyStem (ap.getLastD "") :: names), h2)

/-- `_install_agents` (installer.py:271-285): translate each agent file
into the shared agents directory for this plugin. -/
def installAgents (yload : YLoad) (ydump : YDump) (fs : FS)
    (plugin : ParsedPlugin) (n : String) (home : FS) :
    Except PyErr (List String) × FS :=
  match mkdirP home ["agents", n] with
  | .error e => (.error e, home)
  | .ok h0 => installAgentsGo yload ydump fs n plugin.agents h0

/-- The per-file loop of `_install_commands`. -/
def installCommandsGo (fs : FS) (n : String) :
    List FPath → FS → Except PyErr (List String) × FS
  | [], h => (.ok [], h)
  | cp :: rest, h =>
    match copyFile fs cp h ["plugins", n, "commands", cp.getLastD ""] with
    | .error e => (.error e, h)
    | .ok h1 =>
      match installCommandsGo fs n rest h1 with
      | (.error e, h2) => (.error e, h2)
      | (.ok names, h2) => (.ok (pyStem (cp.getLastD "") :: names), h2)

/-- `_install_commands` (installer.py:288-298): copy the command files
verbatim into the private install directory. -/
def installCommands (fs : FS) (plugin : ParsedPlugin) (n : String) (home : FS) :
    Except PyErr (List String) × FS :=
  match mkdirP home ["plugins", n, "commands"] with
  | .error e => (.error e, home)
  | .ok h0 => installCommandsGo fs n plugin.commands h0

/-- `_install_hooks` (installer.py:301-307): copy the hooks subtree
verbatim into the private install directory. -/
def installHooks (fs : FS) (plugin : ParsedPlugin) (n : String) (home : FS) :
    Except PyErr Unit × FS :=
  match (if fsExists home ["plugins", n, "hooks"] then
           rmtree home ["plugins", n, "hooks"]
         else .ok home) with
  | .error e => (.error e, home)
  | .ok h1 =>
    match copyTree fs (plugin.root ++ ["hooks"]) h1 ["plugins", n, "hooks"] with
    | .error e => (.error e, h1)
    | .ok h2 => (.ok (), h2)

/-- Steps 4-8 of `install_plugin` (installer.py:96-155), after the name
has been established as the string `n` and `installed`-membership was
already checked by the caller. -/
def installRest (yload : YLoad) (ydump : YDump) (fs : FS) (source : FPath)
    (plugin : ParsedPlugin) (n : String) (now : String) (st : AmpState) :
    Except PyErr InstallResult × AmpState :=
  match mkdirP st.home ["plugins", n] with
  | .error e => (.error e, st)
  | .ok h0 =>
    match (if plugin.has_skills then
             match installSkills fs plugin n h0 with
             | (.error e, h) => (.error e, h)
             | (.ok names, h) => (.ok (some names), h)
           else ((.ok none : Except PyErr (Option (List String))), h0)) with
    | (.error e, h) => (.error e, { st with home := h })
    | (.ok skillsRes, h1) =>
      match (if plugin.has_agents then
               match installAgents yload ydump fs plugin n h1 with
               | (.error e, h) => (.error e, h)
               | (.ok names, h) => (.ok (some names), h)
             else ((.ok none : Except PyErr (Option (List String))), h1)) with
      | (.error e, h) => (.error e, { st with home := h })
      | (.ok agentsRes, h2) =>
        match (if plugin.has_commands then
                 match installCommands fs plugin n h2 with
                 | (.error e, h) => (.error e, h)
                 | (.ok names, h) => (.ok (some names), h)
               else ((.ok none : Except PyErr (Option (List String))), h2)) with
        | (.error e, h) => (.error e, { st with home := h })
        | (.ok commandsRes, h3) =>
          match (if plugin.has_hooks then
                   match installHooks fs plugin n h3 with
                   | (.error e, h) => (.error e, h)
                   | (.ok _, h) => (.ok true, h)
                 else ((.ok false : Except PyErr Bool), h3)) with
          | (.error e, h) => (.error e, { st with home := h })
          | (.ok hooksDone, h4) =>
            match (if plugin.has_mcp then
                     (install_mcp_config plugin.mcp_config st.mcp).map
                       (fun m => (true, m))
                   else .ok (false, st.mcp)) with
            | .error e => (.error e, { st with home := h4 })
            | .ok (mcpDone, mcp') =>
              match (if plugin.has_skills then
                       regSkillsDir (pathStr ["plugins", n, "skills"]) st.settings
                     else .ok st.settings) with
              | .error e => (.error e, { st with home := h4, mcp := mcp' })
              | .ok settings' =>
                match register_plugin n
                    (create_plugin_info (pathStr source) plugin.manifest.version
                      ["plugins", n]
                      ((skillsRes.getD []))
                      ((agentsRes.getD []))
                      ((commandsRes.getD []))
                      hooksDone mcpDone now)
                    st.registry with
                | .error e =>
                    (.error e, { home := h4, registry := st.registry,
                                 settings := settings', mcp := mcp' })
                | .ok reg' =>
                    (.ok ⟨true, n, "Installation complete",
                          (match skillsRes with
                           | some l => [("skills", Yaml.list (l.map .str))]
                           | none => []) ++
                          (match agentsRes with
                           | some l => [("agents", Yaml.list (l.map .str))]
                           | none => []) ++
                          (match commandsRes with
                           | some l => [("commands", Yaml.list (l.map .str))]
                           | none => []) ++
                          (if hooksDone then [("hooks", Yaml.bool true)] else []) ++
                          (if mcpDone then [("mcp", Yaml.bool true)] else []),
                          (match commandsRes with
                           | some _ =>
                             ["Commands installed but may need tool-slash-command for full support"]
                           | none => []) ++
                          (if hooksDone then
                             ["Hooks installed but require manual bundle configuration"]
                           else [])⟩,
                     { home := h4, registry := reg', settings := settings', mcp := mcp' })

/-- `install_plugin` (installer.py:47-155).  Steps 1 and 2 (resolution,
parsing) are wrapped in `try/except` and produce failed results; uncaught
exceptions from the later steps are `.error`.  The membership test
`plugin_name in installed` is only true for string names; a non-string
name falls through and raises `TypeError` at the path join. -/
def install_plugin (yload : YLoad) (ydump : YDump) (fs : FS) (source : FPath)
    (force : Bool) (now : String) (st : AmpState) :
    Except PyErr InstallResult × AmpState :=
  match resolve_source fs source with
  | .error _ => (.ok ⟨false, "unknown", "Failed to resolve source", [], []⟩, st)
  | .ok plugin_path =>
    match parse_plugin fs plugin_path with
    | .error _ => (.ok ⟨false, "unknown", "Failed to parse plugin", [], []⟩, st)
    | .ok plugin =>
      match get_installed_plugins st.registry with
      | .error e => (.error e, st)
      | .ok installed =>
        match plugin.manifest.name with
        | .str n =>
          if installed.any (fun e => e.1 == n) && !force then
            (.ok ⟨false, n,
              "Plugin " ++ n ++ " already installed. Use --force to reinstall.",
              [], []⟩, st)
          else installRest yload ydump fs source plugin n now st
        | _ => (.error .typeError, st)

/-- `remove_plugin` (installer.py:158-203). -/
def remove_plugin (name : String) (st : AmpState) :
    Except PyErr (Bool × String) × AmpState :=
  match get_installed_plugins st.registry with
  | .error e => (.error e, st)
  | .ok installed =>
    match installed.find? (fun e => e.1 == name) with
    | none => (.ok (false, "Plugin " ++ name ++ " is not installed"), st)
    | some (_, info) =>
      match unregSkillsDir (pathStr (info.install_path ++ ["skills"])) st.settings with
      | .error e => (.error e, st)
      | .ok settings' =>
        match (match fsGet st.home ["skills", name] with
               | some (.symlink _) =>
                   (.ok (fsRemoveEntry st.home ["skills", name]) : Except PyErr FS)
               | some .dir => rmtree st.home ["skills", name]
               | _ => .ok st.home) with
        | .error e => (.error e, { st with settings := settings' })
        | .ok h1 =>
          match (if fsIsDir h1 ["agents", name] then rmtree h1 ["agents", name]
                 else .ok h1) with
          | .error e => (.error e, { st with home := h1, settings := settings' })
          | .ok h2 =>
            match (if fsIsDir h2 info.install_path then rmtree h2 info.install_path
                   else .ok h2) with
            | .error e => (.error e, { st with home := h2, settings := settings' })
            | .ok h3 =>
              match unregister_plugin name st.registry with
              | .error e => (.error e, { st with home := h3, settings := settings' })
              | .ok (_, reg') =>
                  (.ok (true, "Removed plugin " ++ name),
                   ⟨h3, reg', settings', st.mcp⟩)

/-! ## Derived views of the settings document (used in claim statements) -/

/-- `y.get(k, dflt)` as a total function on values (non-dicts yield the
default; used only to state properties, not in the embedded code). -/
def yget (y : Yaml) (k : String) (dflt : Yaml) : Yaml :=
  match y with
  | .map kvs => dget kvs k dflt
  | _ => dflt

/-- The raw `config.skills.dirs` value of a settings document. -/
def settingsDirsVal (doc : Option SetDoc) : Yaml :=
  yget (yget (yget (settingsNorm doc) "config" (.map [])) "skills" (.map []))
    "dirs" (.list [])

/-- The search-path list of a settings document (empty when the `dirs`
value is not a list). -/
def settingsDirs (doc : Option SetDoc) : List Yaml :=
  match settingsDirsVal doc with
  | .list xs => xs
  | _ => []

/-- Number of occurrences of the string `s` in a list of values. -/
def countStr (xs : List Yaml) (s : String) : Nat :=
  (xs.filter (isStrEq s)).length

/-- A settings document whose search-path list already holds the same
directory twice (as a user-edited file can). -/
def stDupDirs : Option SetDoc :=
  some (.wf (.map [("config", .map [("skills", .map [("dirs",
    .list [.str "/a/skills", .str "/a/skills"])])])]))

/-- Registry state used by the C7 witness: one plugin named `demo`. -/
def stC7 : AmpState :=
  ⟨[], some (.wf [("demo",
      ⟨"src", .str "1.0.0", "t0", ["plugins", "demo"], []⟩)]), none, none⟩

/-- State with an unreadable (malformed YAML) registry file. -/
def stMalformedReg : AmpState := ⟨[], some .malformed, none, none⟩

/-- The plugin of the C10 property: a manifest plus a `hooks/` directory
holding one shell script and no `hooks.json`. -/
def fsHooks : FS :=
  [(["p"], .dir),
   (["p", "plugin.json"], .file (.jsonDoc (.ok (.map [("name", Yaml.str "demo")])))),
   (["p", "hooks"], .dir),
   (["p", "hooks", "run.sh"], .file (.text "echo hi\n"))]

/-- A fresh target home: no files, no registry, no settings, no MCP
config. -/
def stEmpty : AmpState := ⟨[], none, none, none⟩

/-! ## Generic lemmas about `flatMapM` -/

theorem flatMapM_map {α β γ : Type} (m : α → β) (f : β → Except PyErr (List γ))
    (xs : List α) :
    flatMapM f (xs.map m) = flatMapM (fun x => f (m x)) xs := by
  induction xs with
  | nil => rfl
  | cons x xs ih => simp only [List.map_cons, flatMapM, ih]

theorem flatMapM_ok {α β : Type} (f : α → Except PyErr (List β)) (g : α → List β)
    (xs : List α) (h : ∀ x ∈ xs, f x = .ok (g x)) :
    flatMapM f xs = .ok (xs.flatMap g) := by
  induction xs with
  | nil => rfl
  | cons x xs ih =>
    have hx := h x (by simp)
    have ht := ih (fun y hy => h y (by simp [hy]))
    simp only [flatMapM, hx, ht, List.flatMap_cons]
    rfl

theorem flatMap_ite_singleton {α β : Type} (c : α → Bool) (h : α → β) (xs : List α) :
    xs.flatMap (fun x => if c x then [h x] else []) = (xs.filter c).map h := by
  induction xs with
  | nil => rfl
  | cons x xs ih => cases hc : c x <;> simp [List.filter_cons, hc, ih]

/-! ## C2 — translator totality on malformed frontmatter -/

/--
**C2** (code bug): the claim states that `translate_agent` and
`translate_command` return without raising for every input string.  The
document `"---\nhello\n---\nbody"` has a frontmatter block that parses as
the YAML *scalar* `"hello"` (so `yaml.safe_load` raises no `YAMLError`);
`translate_agent` then reaches `data.pop("model", None)` and raises
`AttributeError` (strings have no `pop`), and `translate_command` reaches
`data.get("description", "")` and raises `AttributeError`.  This theorem
evaluates the embedded code at that failing input.
-/
theorem translate_raises_on_scalar_frontmatter :
    translate_agent miniYamlLoad miniYamlDump "---\nhello\n---\nbody"
      = .error .attributeError ∧
    translate_command miniYamlLoad "---\nhello\n---\nbody"
      = .error .attributeError ∧
    miniYamlLoad "hello" = .ok (.str "hello") :=
  ⟨rfl, rfl, rfl⟩

theorem transHook_mkHook (a pr t : String) (p : String × String) :
    transHook a pr t (mkHook p)
      = .ok (if p.1 == "command" then [⟨a, translate_hook_command p.2 pr t⟩] else []) := by
  have key : transHook a pr t (mkHook p)
      = if p.1 == "command" then .ok [⟨a, translate_hook_command p.2 pr t⟩]
        else .ok [] := rfl
  rw [key]
  cases hc : p.1 == "command" <;> simp

theorem transHandler_mkHandler (a pr t : String) (hs : List (String × String)) :
    transHandler a pr t (mkHandler hs)
      = .ok ((hs.filter (fun hk => hk.1 == "command")).map (fun hk =>
          ⟨a, translate_hook_command hk.2 pr t⟩)) := by
  have key : transHandler a pr t (mkHandler hs)
      = flatMapM (transHook a pr t) (hs.map mkHook) := rfl
  rw [key, flatMapM_map, flatMapM_ok _
    (fun p => if p.1 == "command" then [⟨a, translate_hook_command p.2 pr t⟩] else [])
    hs (fun p _ => transHook_mkHook a pr t p)]
  rw [flatMap_ite_singleton]

/--
**C5**: for every hooks-configuration document, plugin root and target
path, `translate_hooks` yields exactly one output entry per handler hook of
type `"command"`, with the event name mapped through the fixed five-entry
table (unknown names lowercased) and every plugin-root placeholder in the
command substituted by the target path (bare and quoted-path patterns);
non-command entries are dropped, and if no entries survive the result is
the empty mapping, not an error.
-/
theorem translate_hooks_spec (events : List (String × List (List (String × String))))
    (plugin_root target : String) :
    translate_hooks (mkHooksConfig events) plugin_root target
      = .ok (if (hooksSpecList events plugin_root target).isEmpty then .map []
             else .map [("shell_hooks",
                    .list ((hooksSpecList events plugin_root target).map shellHookY))]) := by
  have key : translate_hooks (mkHooksConfig events) plugin_root target
      = (match flatMapM (fun (p : String × Yaml) =>
            match pyIter p.2 with
            | .error e => .error e
            | .ok handlers =>
              flatMapM (transHandler (ampEvent p.1) plugin_root target) handlers)
          (events.map (fun e => (e.1, .list (e.2.map mkHandler)))) with
         | .error e => .error e
         | .ok allHooks =>
           .ok (if allHooks.isEmpty then Yaml.map []
                else .map [("shell_hooks", .list (allHooks.map shellHookY))])) := rfl
  rw [key, flatMapM_map, flatMapM_ok _
    (fun e => e.2.flatMap (fun hs =>
      (hs.filter (fun hk => hk.1 == "command")).map (fun hk =>
        (⟨ampEvent e.1, translate_hook_command hk.2 plugin_root target⟩ : ShellHook))))
    events ?inner]
  · rfl
  · intro e _
    have key2 : (match pyIter (.list (e.2.map mkHandler)) with
        | .error er => .error er
        | .ok handlers =>
          flatMapM (transHandler (ampEvent e.1) plugin_root target) handlers)
        = flatMapM (transHandler (ampEvent e.1) plugin_root target) (e.2.map mkHandler) := rfl
    rw [key2, flatMapM_map, flatMapM_ok _
      (fun hs => (hs.filter (fun hk => hk.1 == "command")).map (fun hk =>
        (⟨ampEvent e.1, translate_hook_command hk.2 plugin_root target⟩ : ShellHook)))
      e.2 (fun hs _ => transHandler_mkHandler (ampEvent e.1) plugin_root target hs)]

/-- The rebuilt frontmatter always has the grouping key first. -/
theorem hasKey_agentAmpMap (kvs : List (String × Yaml)) :
    hasKey (agentAmpMap kvs) "meta" = true := rfl

/--
**C6**: a document whose frontmatter already contains the top-level `meta`
grouping key is returned unchanged by `translate_agent`; consequently
`translate_agent` is idempotent on every input on which it is defined
(returns `.ok`), given that the loader/dumper pair is stable on the
documents the rewrite produces.
-/
theorem translate_agent_idempotent (yload : YLoad) (ydump : YDump) (x : String) :
    (∀ fm body kvs, splitFrontmatter x = (some fm, body) →
        yload fm = .ok (.map kvs) → hasKey kvs "meta" = true →
        translate_agent yload ydump x = .ok x) ∧
    (∀ y, translate_agent yload ydump x = .ok y → RetransStable yload ydump x →
        translate_agent yload ydump y = .ok y) := by
  constructor
  · intro fm body kvs h1 h2 h3
    simp only [translate_agent, h1, h2, h3, if_true]
  · intro y hy hstab
    cases hsplit : splitFrontmatter x with
    | mk fmOpt body =>
      cases fmOpt with
      | none =>
        have htx : translate_agent yload ydump x = .ok x := by
          simp only [translate_agent, hsplit]
        rw [htx] at hy
        obtain rfl : x = y := by injection hy
        exact htx
      | some fm =>
        cases hload : yload fm with
        | error e =>
          have htx : translate_agent yload ydump x = .ok x := by
            simp only [translate_agent, hsplit, hload]
          rw [htx] at hy
          obtain rfl : x = y := by injection hy
          exact htx
        | ok data =>
          cases data with
          | null =>
            have htx : translate_agent yload ydump x = .ok x := by
              simp only [translate_agent, hsplit, hload]
            rw [htx] at hy
            obtain rfl : x = y := by injection hy
            exact htx
          | map kvs =>
            cases hmeta : hasKey kvs "meta" with
            | true =>
              have htx : translate_agent yload ydump x = .ok x := by
                simp only [translate_agent, hsplit, hload, hmeta, if_true]
              rw [htx] at hy
              obtain rfl : x = y := by injection hy
              exact htx
            | false =>
              have htx : translate_agent yload ydump x
                  = .ok ("---\n" ++ ydump (.map (agentAmpMap kvs)) ++ "---\n" ++ body) := by
                simp only [translate_agent, hsplit, hload, hmeta]
                simp
              rw [htx] at hy
              obtain rfl : ("---\n" ++ ydump (.map (agentAmpMap kvs)) ++ "---\n" ++ body) = y := by
                injection hy
              obtain ⟨fm2, hs2, hl2⟩ := hstab fm body kvs hsplit hload hmeta
              simp only [translate_agent, hs2, hl2, hasKey_agentAmpMap, if_true]
          | str s =>
            cases hinf : listIsInfix "meta".toList s.toList with
            | true =>
              have htx : translate_agent yload ydump x = .ok x := by
                simp only [translate_agent, hsplit, hload, hinf, if_true]
              rw [htx] at hy
              obtain rfl : x = y := by injection hy
              exact htx
            | false =>
              have htx : translate_agent yload ydump x = .error .attributeError := by
                simp only [translate_agent, hsplit, hload, hinf]
                simp
              rw [htx] at hy
              exact absurd hy (by simp)
          | list xs =>
            cases hmem : xs.any (fun e => match e with | .str s => s == "meta" | _ => false) with
            | true =>
              have htx : translate_agent yload ydump x = .ok x := by
                simp only [translate_agent, hsplit, hload, hmem, if_true]
              rw [htx] at hy
              obtain rfl : x = y := by injection hy
              exact htx
            | false =>
              have htx : translate_agent yload ydump x = .error .typeError := by
                simp only [translate_agent, hsplit, hload, hmem]
                simp
              rw [htx] at hy
              exact absurd hy (by simp)
          | int n =>
            have htx : translate_agent yload ydump x = .error .typeError := by
              simp only [translate_agent, hsplit, hload]
            rw [htx] at hy
            exact absurd hy (by simp)
          | bool b =>
            have htx : translate_agent yload ydump x = .error .typeError := by
              simp only [translate_agent, hsplit, hload]
            rw [htx] at hy
            exact absurd hy (by simp)

/-- Witness for C6 at concrete inputs: a translated agent document is a
fixed point, and an already-grouped document is returned unchanged. -/
theorem translate_agent_idempotent_witness :
    translate_agent miniYamlLoad miniYamlDump "---\nname: a\n---\nB"
        = .ok "---\nmeta:\n  name: a\n---\nB" ∧
    translate_agent miniYamlLoad miniYamlDump "---\nmeta:\n  name: a\n---\nB"
        = .ok "---\nmeta:\n  name: a\n---\nB" ∧
    translate_agent miniYamlLoad miniYamlDump "---\nmeta: x\n---\nB"
        = .ok "---\nmeta: x\n---\nB" := by
  refine ⟨rfl, ?idem, ?meta⟩
  · refine (translate_agent_idempotent miniYamlLoad miniYamlDump
      "---\nname: a\n---\nB").2 "---\nmeta:\n  name: a\n---\nB" rfl ?_
    intro fm body kvs h1 h2 h3
    rw [show splitFrontmatter "---\nname: a\n---\nB" = (some "name: a", "B") from rfl] at h1
    injection h1 with h1a h1b
    injection h1a with h1a
    subst h1a; subst h1b
    rw [show miniYamlLoad "name: a" = .ok (.map [("name", Yaml.str "a")]) from rfl] at h2
    injection h2 with h2
    injection h2 with h2
    subst h2
    exact ⟨"meta:\n  name: a", rfl, rfl⟩
  · exact (translate_agent_idempotent miniYamlLoad miniYamlDump
      "---\nmeta: x\n---\nB").1 "meta: x" "B" [("meta", Yaml.str "x")] rfl rfl rfl

/-! ## C4 — when parsing fails with `InvalidPlugin` -/

theorem readJson_err_kinds (fs : FS) (p : FPath) (e : PyErr)
    (h : readJson fs p = .error e) : e = .jsonError ∨ e = .osError := by
  unfold readJson at h
  split at h <;> simp_all

theorem from_dict_err_kinds (d : Yaml) (e : PyErr)
    (h : PluginManifest.from_dict d = .error e) : e = .attributeError := by
  unfold PluginManifest.from_dict at h
  split at h <;> simp_all

theorem parse_manifest_never_valueError_when_found (fs : FS) (root : FPath)
    (hex : fsExists fs (manifestPath fs root) = true) :
    parse_manifest fs root ≠ .error .valueError := by
  intro h
  unfold parse_manifest at h
  rw [hex] at h
  simp only [if_true] at h
  cases hr : readJson fs (manifestPath fs root) with
  | error e =>
    simp only [hr] at h
    injection h with h
    rcases readJson_err_kinds _ _ _ hr with h' | h' <;> simp_all
  | ok d =>
    simp only [hr] at h
    cases hd : PluginManifest.from_dict d with
    | error e =>
      rw [hd] at h
      injection h with h
      have := from_dict_err_kinds _ _ hd
      simp_all
    | ok m => rw [hd] at h; exact Except.noConfusion h

theorem parse_manifest_valueError_iff (fs : FS) (root : FPath) :
    parse_manifest fs root = .error .valueError ↔
      (fsExists fs (root ++ [".claude-plugin", "plugin.json"]) = false ∧
       fsExists fs (root ++ ["plugin.json"]) = false) := by
  constructor
  · intro h
    cases hex : fsExists fs (manifestPath fs root) with
    | true => exact absurd h (parse_manifest_never_valueError_when_found fs root hex)
    | false =>
      cases hex1 : fsExists fs (root ++ [".claude-plugin", "plugin.json"]) with
      | true =>
        exfalso
        have : manifestPath fs root = root ++ [".claude-plugin", "plugin.json"] := by
          unfold manifestPath; rw [hex1]; simp
        rw [this, hex1] at hex
        exact Bool.noConfusion hex
      | false =>
        refine ⟨rfl, ?_⟩
        have : manifestPath fs root = root ++ ["plugin.json"] := by
          unfold manifestPath; rw [hex1]; simp
        rw [this] at hex
        exact hex
  · intro ⟨h1, h2⟩
    have hmp : manifestPath fs root = root ++ ["plugin.json"] := by
      unfold manifestPath; rw [h1]; simp
    unfold parse_manifest
    rw [hmp, h2]
    simp

theorem discover_skills_err_kinds (fs : FS) (root : FPath) (e : PyErr)
    (h : discover_skills fs root = .error e) : e = .osError := by
  unfold discover_skills at h
  split at h
  · exact Except.noConfusion h
  · split at h
    · injection h with h; exact h.symm
    · exact Except.noConfusion h

theorem discover_agents_no_err (fs : FS) (root : FPath) (e : PyErr) :
    discover_agents fs root ≠ .error e := by
  unfold discover_agents
  split <;> simp

theorem discover_commands_no_err (fs : FS) (root : FPath) (e : PyErr) :
    discover_commands fs root ≠ .error e := by
  unfold discover_commands
  split <;> simp

theorem discover_hooks_err_kinds (fs : FS) (root : FPath) (e : PyErr)
    (h : discover_hooks fs root = .error e) : e = .jsonError ∨ e = .osError := by
  unfold discover_hooks at h
  split at h
  · exact Except.noConfusion h
  · split at h
    · rename_i heq
      split at heq
      · cases hr : readJson fs (root ++ ["hooks", "hooks.json"]) with
        | error e' =>
          rw [hr] at heq
          simp only [Except.map] at heq
          injection heq with heq
          subst heq
          injection h with h
          subst h
          exact readJson_err_kinds _ _ _ hr
        | ok v => rw [hr] at heq; simp [Except.map] at heq
      · exact Except.noConfusion heq
    · exact Except.noConfusion h

theorem load_json_config_err_kinds (fs : FS) (p : FPath) (e : PyErr)
    (h : load_json_config fs p = .error e) : e = .jsonError ∨ e = .osError := by
  unfold load_json_config at h
  split at h
  · exact Except.noConfusion h
  · split at h
    · rename_i hr
      injection h with h
      subst h
      exact readJson_err_kinds _ _ _ hr
    · exact Except.noConfusion h

theorem discover_skills_absent (fs : FS) (root : FPath)
    (h : fsExists fs (root ++ ["skills"]) = false) :
    discover_skills fs root = .ok [] := by
  unfold discover_skills; simp [h]

theorem discover_agents_absent (fs : FS) (root : FPath)
    (h : fsExists fs (root ++ ["agents"]) = false) :
    discover_agents fs root = .ok [] := by
  unfold discover_agents; simp [h]

theorem discover_commands_absent (fs : FS) (root : FPath)
    (h : fsExists fs (root ++ ["commands"]) = false) :
    discover_commands fs root = .ok [] := by
  unfold discover_commands; simp [h]

theorem discover_hooks_absent (fs : FS) (root : FPath)
    (h : fsExists fs (root ++ ["hooks"]) = false) :
    discover_hooks fs root = .ok (none, []) := by
  unfold discover_hooks; simp [h]

theorem load_json_config_absent (fs : FS) (p : FPath)
    (h : fsExists fs p = false) :
    load_json_config fs p = .ok none := by
  unfold load_json_config; simp [h]

/--
**C4**: `parse_plugin` fails with `InvalidPlugin` (`ValueError`) exactly
when the path is not a directory or no manifest exists at either recognized
location (`.claude-plugin/plugin.json`, falling back to root-level
`plugin.json`); and the absence of all optional directories and config
files is not an error — parsing then succeeds with empty component lists
and `None` configs.
-/
theorem parse_plugin_invalid_iff (fs : FS) (root : FPath) (m : PluginManifest) :
    (parse_plugin fs root = .error .valueError ↔
      fsIsDir fs root = false ∨
        (fsExists fs (root ++ [".claude-plugin", "plugin.json"]) = false ∧
         fsExists fs (root ++ ["plugin.json"]) = false)) ∧
    (fsIsDir fs root = true →
     parse_manifest fs root = .ok m →
     fsExists fs (root ++ ["skills"]) = false →
     fsExists fs (root ++ ["agents"]) = false →
     fsExists fs (root ++ ["commands"]) = false →
     fsExists fs (root ++ ["hooks"]) = false →
     fsExists fs (root ++ [".mcp.json"]) = false →
     fsExists fs (root ++ [".lsp.json"]) = false →
     parse_plugin fs root = .ok ⟨root, m, [], [], [], none, [], none, none⟩) := by
  constructor
  · constructor
    · intro h
      cases hdir : fsIsDir fs root with
      | false => exact Or.inl rfl
      | true =>
        refine Or.inr ?_
        unfold parse_plugin at h
        simp only [hdir, Bool.not_true, Bool.false_eq_true, if_false] at h
        cases hpm : parse_manifest fs root with
        | error e =>
          simp only [hpm] at h
          injection h with h
          subst h
          exact (parse_manifest_valueError_iff fs root).mp hpm
        | ok m' =>
          exfalso
          simp only [hpm] at h
          cases hsk : discover_skills fs root with
          | error e =>
            simp only [hsk] at h
            injection h with h
            have := discover_skills_err_kinds fs root e hsk
            simp_all
          | ok sk =>
            simp only [hsk] at h
            cases hag : discover_agents fs root with
            | error e => exact discover_agents_no_err fs root e hag
            | ok ag =>
              simp only [hag] at h
              cases hcm : discover_commands fs root with
              | error e => exact discover_commands_no_err fs root e hcm
              | ok cm =>
                simp only [hcm] at h
                cases hhk : discover_hooks fs root with
                | error e =>
                  simp only [hhk] at h
                  injection h with h
                  have := discover_hooks_err_kinds fs root e hhk
                  simp_all
                | ok hk =>
                  simp only [hhk] at h
                  cases hmc : load_json_config fs (root ++ [".mcp.json"]) with
                  | error e =>
                    simp only [hmc] at h
                    injection h with h
                    have := load_json_config_err_kinds fs _ e hmc
                    simp_all
                  | ok mc =>
                    simp only [hmc] at h
                    cases hls : load_json_config fs (root ++ [".lsp.json"]) with
                    | error e =>
                      simp only [hls] at h
                      injection h with h
                      have := load_json_config_err_kinds fs _ e hls
                      simp_all
                    | ok ls =>
                      simp only [hls] at h
                      exact Except.noConfusion h
    · intro h
      cases h with
      | inl hdir =>
        unfold parse_plugin
        simp [hdir]
      | inr hmiss =>
        have hpm := (parse_manifest_valueError_iff fs root).mpr hmiss
        unfold parse_plugin
        cases hdir : fsIsDir fs root with
        | false => simp [hdir]
        | true => simp [hdir, hpm]
  · intro hdir hm hsk hag hcm hhk hmc hls
    unfold parse_plugin
    simp only [hdir, Bool.not_true, Bool.false_eq_true, if_false, hm,
      discover_skills_absent fs root hsk, discover_agents_absent fs root hag,
      discover_commands_absent fs root hcm, discover_hooks_absent fs root hhk,
      load_json_config_absent fs _ hmc, load_json_config_absent fs _ hls]

/-- Witness for C4: a directory with only a root-level manifest parses
with empty components and null configs; the empty filesystem is not a
directory and fails with `InvalidPlugin`; a directory without any manifest
fails with `InvalidPlugin`. -/
theorem parse_plugin_invalid_witness :
    parse_plugin fsMin ["p"] = .ok ⟨["p"], mMin, [], [], [], none, [], none, none⟩ ∧
    parse_plugin [] ["q"] = .error .valueError ∧
    parse_plugin [(["d"], .dir)] ["d"] = .error .valueError := by
  refine ⟨?_, ?_, ?_⟩
  · exact (parse_plugin_invalid_iff fsMin ["p"] mMin).2 rfl rfl rfl rfl rfl rfl rfl rfl
  · exact (parse_plugin_invalid_iff [] ["q"] mMin).1.mpr (Or.inl rfl)
  · exact (parse_plugin_invalid_iff [(["d"], .dir)] ["d"] mMin).1.mpr
      (Or.inr ⟨rfl, rfl⟩)

/--
**C9**: parsing a plugin directory containing a manifest plus exactly one
skill, one agent and one command yields
`summary() == {skills: 1, agents: 1, commands: 1, has_hooks: false,
has_mcp: false}` (together with the manifest's name and version).
-/
theorem parse_one_each_summary :
    ∃ p, parse_plugin fsOneEach ["p"] = .ok p ∧
      p.summary = ⟨.str "test-plugin", .str "1.0.0", 1, 1, 1, false, false⟩ :=
  ⟨_, rfl, rfl⟩

/-! ## C7 — removing an unregistered plugin -/

/--
**C7**: for every name that has no record in the registry (file absent or
readable without that name), `remove_plugin` returns a `NotInstalled`
failure and leaves the whole state — registry file, settings document and
installed directories — unchanged.
-/
theorem remove_plugin_not_installed (name : String) (st : AmpState)
    (h : st.registry = none ∨
         ∃ es, st.registry = some (.wf es) ∧ es.all (fun e => e.1 != name) = true) :
    remove_plugin name st
      = (.ok (false, "Plugin " ++ name ++ " is not installed"), st) := by
  rcases h with h | ⟨es, h, hall⟩
  · unfold remove_plugin
    rw [h]
    rfl
  · unfold remove_plugin
    rw [h]
    simp only [get_installed_plugins]
    have hfind : es.find? (fun e => e.1 == name) = none := by
      rw [List.find?_eq_none]
      intro e he
      have := List.all_eq_true.mp hall e he
      simpa using this
    rw [hfind]

/-- Witness for C7 at a concrete state. -/
theorem remove_plugin_not_installed_witness :
    remove_plugin "ghost" stC7 = (.ok (false, "Plugin ghost is not installed"), stC7) :=
  remove_plugin_not_installed "ghost" stC7 (Or.inr ⟨_, rfl, rfl⟩)

/-! ## C8 — idempotent registration of a skills directory -/

/--
**C8** (counterexample): the claim states that for *every* settings state,
registering a directory twice leaves exactly one occurrence in
`config.skills.dirs`.  Starting from a (user-edited) document that already
holds the directory twice, both applications skip the append (`in` is
true) and the two occurrences survive.
-/
theorem register_skills_twice_counterexample :
    (regSkillsDir "/a/skills" stDupDirs).bind (regSkillsDir "/a/skills")
      = .ok stDupDirs ∧
    countStr (settingsDirs stDupDirs) "/a/skills" = 2 :=
  ⟨rfl, rfl⟩

theorem ylookup_assocSetY_self (kvs : List (String × Yaml)) (k : String) (v : Yaml) :
    ylookup (assocSetY kvs k v) k = some v := by
  unfold assocSetY
  cases hk : hasKey kvs k with
  | true =>
    simp only [if_true]
    induction kvs with
    | nil => simp [hasKey, ylookup] at hk
    | cons e rest ih =>
      cases he : e.1 == k with
      | true =>
        simp only [List.map_cons, he, if_true, ylookup, List.find?_cons]
        have : (k == k) = true := by simp
        simp [this]
      | false =>
        have hk' : hasKey rest k = true := by
          simp only [hasKey, ylookup, List.find?_cons, he] at hk
          simpa [hasKey, ylookup] using hk
        have := ih hk'
        simp only [List.map_cons, he, if_false, ylookup, List.find?_cons]
        simp only [ylookup] at this
        simpa [he] using this
  | false =>
    rw [if_neg (by simp)]
    induction kvs with
    | nil =>
      simp [ylookup, List.find?_cons]
    | cons e rest ih =>
      cases he : e.1 == k with
      | true => simp [hasKey, ylookup, List.find?_cons, he] at hk
      | false =>
        have hk' : hasKey rest k = false := by
          simp only [hasKey, ylookup, List.find?_cons, he] at hk
          simpa [hasKey, ylookup] using hk
        have := ih hk'
        simp only [List.cons_append, ylookup, List.find?_cons, he]
        simpa [ylookup] using this

theorem hasKey_of_lookup {kvs : List (String × Yaml)} {k : String} {v : Yaml}
    (h : ylookup kvs k = some v) : hasKey kvs k = true := by
  simp [hasKey, h]

theorem dget_of_lookup {kvs : List (String × Yaml)} {k : String} {v d : Yaml}
    (h : ylookup kvs k = some v) : dget kvs k d = v := by
  simp [dget, h]

theorem lookup_of_dget_hasKey {kvs : List (String × Yaml)} {k : String} {v d : Yaml}
    (hd : dget kvs k d = v) (hk : hasKey kvs k = true) : ylookup kvs k = some v := by
  unfold hasKey at hk
  cases ho : ylookup kvs k with
  | none => rw [ho] at hk; simp at hk
  | some w => rw [ho] at hk; unfold dget at hd; rw [ho] at hd; simp at hd; rw [hd]

theorem regSkillsDirCore_stable (sdir : String) (kvs ckvs skvs : List (String × Yaml))
    (xs : List Yaml)
    (l1 : ylookup kvs "config" = some (.map ckvs))
    (l2 : ylookup ckvs "skills" = some (.map skvs))
    (l3 : ylookup skvs "dirs" = some (.list xs))
    (hm : xs.any (isStrEq sdir) = true) :
    regSkillsDirCore sdir (.map kvs) = .ok (.map kvs) := by
  have hk1 := hasKey_of_lookup l1
  have hk2 := hasKey_of_lookup l2
  have hk3 := hasKey_of_lookup l3
  unfold regSkillsDirCore
  simp only [pyIn, pyIndex, l1, l2, l3, hk1, hk2, hk3, hm, if_true]

theorem hasKey_nil (k : String) : hasKey [] k = false := rfl

theorem ylookup_nil (k : String) : ylookup [] k = none := rfl

theorem regSkillsDirCore_run (sdir : String) (kvs ckvs skvs : List (String × Yaml))
    (xs : List Yaml)
    (h1 : dget kvs "config" (.map []) = .map ckvs)
    (h2 : dget ckvs "skills" (.map []) = .map skvs)
    (h3 : dget skvs "dirs" (.list []) = .list xs) :
    ∃ kvs' ckvs' skvs',
      regSkillsDirCore sdir (.map kvs) = .ok (.map kvs') ∧
      ylookup kvs' "config" = some (.map ckvs') ∧
      ylookup ckvs' "skills" = some (.map skvs') ∧
      ylookup skvs' "dirs" = some (.list
        (if xs.any (isStrEq sdir) then xs else xs ++ [.str sdir])) := by
  cases hk1 : hasKey kvs "config" with
  | true =>
    have l1 := lookup_of_dget_hasKey h1 hk1
    cases hk2 : hasKey ckvs "skills" with
    | true =>
      have l2 := lookup_of_dget_hasKey h2 hk2
      cases hk3 : hasKey skvs "dirs" with
      | true =>
        have l3 := lookup_of_dget_hasKey h3 hk3
        cases hmem : xs.any (isStrEq sdir) with
        | true =>
          refine ⟨kvs, ckvs, skvs, ?_, l1, l2, ?_⟩
          · unfold regSkillsDirCore
            simp only [pyIn, pyIndex, l1, l2, l3, hk1, hk2, hk3, hmem, if_true]
          · simp [hmem, l3]
        | false =>
          apply Exists.intro
          apply Exists.intro
          apply Exists.intro
          refine ⟨?_, ?_, ?_, ?_⟩
          · unfold regSkillsDirCore
            simp only [pyIn, pyIndex, dictSet, l1, l2, l3, hk1, hk2, hk3, hmem,
              if_true, Bool.false_eq_true, if_false]
            rfl
          · exact ylookup_assocSetY_self _ _ _
          · exact ylookup_assocSetY_self _ _ _
          · simpa [hmem] using ylookup_assocSetY_self skvs "dirs"
              (.list (xs ++ [.str sdir]))
      | false =>
        have hlook3 : ylookup skvs "dirs" = none := by
          unfold hasKey at hk3
          cases ho : ylookup skvs "dirs" with
          | none => rfl
          | some w => rw [ho] at hk3; simp at hk3
        have hxs : xs = [] := by
          unfold dget at h3
          rw [hlook3] at h3
          simp at h3
          exact h3
        subst hxs
        apply Exists.intro
        apply Exists.intro
        apply Exists.intro
        refine ⟨?_, ?_, ?_, ?_⟩
        · unfold regSkillsDirCore
          simp only [pyIn, pyIndex, dictSet, l1, l2, hk1, hk2, hk3, if_true,
            Bool.false_eq_true, if_false, ylookup_assocSetY_self, List.any_nil,
            hasKey_nil]
          rfl
        · exact ylookup_assocSetY_self _ _ _
        · exact ylookup_assocSetY_self _ _ _
        · simpa using ylookup_assocSetY_self (assocSetY skvs "dirs" (.list []))
            "dirs" (.list ([] ++ [.str sdir]))
    | false =>
      have hlook2 : ylookup ckvs "skills" = none := by
        unfold hasKey at hk2
        cases ho : ylookup ckvs "skills" with
        | none => rfl
        | some w => rw [ho] at hk2; simp at hk2
      have hsk : skvs = [] := by
        unfold dget at h2
        rw [hlook2] at h2
        simp at h2
        exact h2
      have hxs : xs = [] := by
        subst hsk
        unfold dget at h3
        rw [ylookup_nil] at h3
        simp at h3
        exact h3
      subst hsk
      subst hxs
      apply Exists.intro
      apply Exists.intro
      apply Exists.intro
      refine ⟨?_, ?_, ?_, ?_⟩
      · unfold regSkillsDirCore
        simp only [pyIn, pyIndex, dictSet, l1, hk1, hk2, if_true,
          Bool.false_eq_true, if_false, ylookup_assocSetY_self, List.any_nil,
          hasKey_nil]
        rfl
      · exact ylookup_assocSetY_self _ _ _
      · exact ylookup_assocSetY_self _ _ _
      · simpa using ylookup_assocSetY_self (assocSetY [] "dirs" (.list []))
          "dirs" (.list ([] ++ [.str sdir]))
  | false =>
    have hlook1 : ylookup kvs "config" = none := by
      unfold hasKey at hk1
      cases ho : ylookup kvs "config" with
      | none => rfl
      | some w => rw [ho] at hk1; simp at hk1
    have hck : ckvs = [] := by
      unfold dget at h1
      rw [hlook1] at h1
      simp at h1
      exact h1
    have hsk : skvs = [] := by
      subst hck
      unfold dget at h2
      rw [ylookup_nil] at h2
      simp at h2
      exact h2
    have hxs : xs = [] := by
      subst hsk
      unfold dget at h3
      rw [ylookup_nil] at h3
      simp at h3
      exact h3
    subst hck
    subst hsk
    subst hxs
    apply Exists.intro
    apply Exists.intro
    apply Exists.intro
    refine ⟨?_, ?_, ?_, ?_⟩
    · unfold regSkillsDirCore
      simp only [pyIn, pyIndex, dictSet, hk1, if_true,
        Bool.false_eq_true, if_false, ylookup_assocSetY_self, List.any_nil,
        hasKey_nil]
      rfl
    · exact ylookup_assocSetY_self _ _ _
    · exact ylookup_assocSetY_self _ _ _
    · simpa using ylookup_assocSetY_self (assocSetY [] "dirs" (.list []))
        "dirs" (.list ([] ++ [.str sdir]))

theorem regSkillsDir_eq (sdir : String) (doc : Option SetDoc)
    (hmal : doc ≠ some .malformed) :
    regSkillsDir sdir doc
      = (regSkillsDirCore sdir (settingsNorm doc)).map (fun y' => some (.wf y')) := by
  cases doc with
  | none => rfl
  | some sd =>
    cases sd with
    | malformed => exact absurd rfl hmal
    | wf y => rfl

theorem countStr_eq_zero_iff (xs : List Yaml) (s : String) :
    countStr xs s = 0 ↔ xs.any (isStrEq s) = false := by
  induction xs with
  | nil => simp [countStr]
  | cons y t ih =>
    cases hy : isStrEq s y with
    | true => simp [countStr, List.filter_cons, hy, List.any_cons]
    | false => simp [countStr, List.filter_cons, hy, List.any_cons, ih]

theorem countStr_append_self (xs : List Yaml) (s : String) :
    countStr (xs ++ [.str s]) s = countStr xs s + 1 := by
  simp [countStr, List.filter_append, List.filter_cons, isStrEq]

/--
**C8** (amended): for every settings state whose (defaulted)
`config`/`skills` levels are mappings and whose `dirs` level is a list —
in particular every state the tool itself maintains — registering a skills
directory is idempotent (a second application returns the same document),
and the resulting search-path list contains exactly one occurrence of the
path whenever it contained at most one beforehand; a pre-existing
duplicate is left at its original multiplicity.
-/
theorem register_skills_dir_idempotent (sdir : String) (doc : Option SetDoc)
    (kvs ckvs skvs : List (String × Yaml)) (xs : List Yaml)
    (hmal : doc ≠ some .malformed)
    (h0 : settingsNorm doc = .map kvs)
    (h1 : dget kvs "config" (.map []) = .map ckvs)
    (h2 : dget ckvs "skills" (.map []) = .map skvs)
    (h3 : dget skvs "dirs" (.list []) = .list xs) :
    ∃ d1, regSkillsDir sdir doc = .ok d1 ∧
      regSkillsDir sdir d1 = .ok d1 ∧
      countStr (settingsDirs d1) sdir
        = (if countStr xs sdir = 0 then 1 else countStr xs sdir) := by
  obtain ⟨kvs', ckvs', skvs', hrun, l1', l2', l3'⟩ :=
    regSkillsDirCore_run sdir kvs ckvs skvs xs h1 h2 h3
  have hnorm : settingsNorm (some (.wf (.map kvs'))) = .map kvs' := by
    have ht : yTruthy (.map kvs') = true := by
      cases kvs' with
      | nil => simp [ylookup] at l1'
      | cons a l => rfl
    show (if yTruthy (.map kvs') = true then Yaml.map kvs' else .map []) = .map kvs'
    rw [ht]
    simp
  have hmem' : (if xs.any (isStrEq sdir) then xs else xs ++ [.str sdir]).any
      (isStrEq sdir) = true := by
    cases hmem : xs.any (isStrEq sdir) with
    | true => simp [hmem]
    | false =>
      simp only [hmem, Bool.false_eq_true, if_false, List.any_append,
        List.any_cons, List.any_nil]
      simp [isStrEq]
  refine ⟨some (.wf (.map kvs')), ?_, ?_, ?_⟩
  · rw [regSkillsDir_eq sdir doc hmal, h0, hrun]
    rfl
  · rw [regSkillsDir_eq sdir (some (.wf (.map kvs'))) (by simp), hnorm,
      regSkillsDirCore_stable sdir kvs' ckvs' skvs' _ l1' l2' l3' hmem']
    rfl
  · have hdirs : settingsDirs (some (.wf (.map kvs')))
        = (if xs.any (isStrEq sdir) then xs else xs ++ [.str sdir]) := by
      unfold settingsDirs settingsDirsVal
      rw [hnorm]
      rw [show yget (.map kvs') "config" (.map []) = .map ckvs' from by
        unfold yget; exact dget_of_lookup l1']
      rw [show yget (.map ckvs') "skills" (.map []) = .map skvs' from by
        unfold yget; exact dget_of_lookup l2']
      rw [show yget (.map skvs') "dirs" (.list [])
            = .list (if xs.any (isStrEq sdir) then xs else xs ++ [.str sdir]) from by
        unfold yget; exact dget_of_lookup l3']
    rw [hdirs]
    cases hmem : xs.any (isStrEq sdir) with
    | true =>
      have hnz : countStr xs sdir ≠ 0 := by
        intro hc
        rw [countStr_eq_zero_iff] at hc
        rw [hc] at hmem
        exact Bool.noConfusion hmem
      simp [hmem, hnz]
    | false =>
      have hz : countStr xs sdir = 0 := (countStr_eq_zero_iff xs sdir).mpr hmem
      simp [hmem, hz, countStr_append_self]

/-- Witness for C8: registering into an absent settings file, twice. -/
theorem register_skills_dir_idempotent_witness :
    ∃ d1, regSkillsDir "/h/plugins/demo/skills" (none : Option SetDoc) = .ok d1 ∧
      regSkillsDir "/h/plugins/demo/skills" d1 = .ok d1 ∧
      countStr (settingsDirs d1) "/h/plugins/demo/skills"
        = (if countStr ([] : List Yaml) "/h/plugins/demo/skills" = 0 then 1
           else countStr ([] : List Yaml) "/h/plugins/demo/skills") :=
  register_skills_dir_idempotent "/h/plugins/demo/skills" none [] [] [] []
    (by simp) rfl rfl rfl rfl

/-! ## C3 — the registry holds at most one record per name -/

theorem upsert_keys_nodup {α : Type} (es : List (String × α)) (k : String) (v : α)
    (h : (es.map Prod.fst).Nodup) : ((upsert es k v).map Prod.fst).Nodup := by
  unfold upsert
  cases hk : es.any (fun e => e.1 == k) with
  | true =>
    simp only [if_true]
    have : (es.map (fun e => if e.1 == k then (k, v) else e)).map Prod.fst
        = es.map Prod.fst := by
      rw [List.map_map]
      apply List.map_congr_left
      intro e _
      by_cases he : e.1 = k
      · simp [he]
      · simp [he]
    rw [this]
    exact h
  | false =>
    rw [if_neg (by simp)]
    rw [List.map_append]
    simp only [List.map_cons, List.map_nil]
    rw [List.nodup_append]
    refine ⟨h, by simp, ?_⟩
    intro a ha
    simp only [List.mem_singleton]
    intro hak
    subst hak
    rw [List.any_eq_false] at hk
    obtain ⟨e, he, hek⟩ := List.mem_map.mp ha
    exact hk e he (by simpa using hek)

theorem find?_upsert_self {α : Type} (es : List (String × α)) (k : String) (v : α) :
    (upsert es k v).find? (fun e => e.1 == k) = some (k, v) := by
  unfold upsert
  cases hk : es.any (fun e => e.1 == k) with
  | true =>
    simp only [if_true]
    induction es with
    | nil => exact absurd hk (by simp)
    | cons e rest ih =>
      cases he : e.1 == k with
      | true =>
        have hfe : (if (e.1 == k) = true then (k, v) else e) = (k, v) := by
          simp [he]
        have hkk : ((k, v).1 == k) = true := by simp
        rw [List.map_cons, hfe, List.find?_cons, hkk]
      | false =>
        have hk' : rest.any (fun e => e.1 == k) = true := by
          simpa [List.any_cons, he] using hk
        have hfe : (if (e.1 == k) = true then (k, v) else e) = e := by
          simp [he]
        rw [List.map_cons, hfe, List.find?_cons, he]
        exact ih hk'
  | false =>
    rw [if_neg (by simp)]
    induction es with
    | nil => simp
    | cons e rest ih =>
      cases he : e.1 == k with
      | true => simp [List.any_cons, he] at hk
      | false =>
        have hk' : rest.any (fun e => e.1 == k) = false := by
          simpa [List.any_cons, he] using hk
        rw [List.cons_append, List.find?_cons, he]
        exact ih hk'

theorem parse_plugin_ok_exists {fs : FS} {p : FPath} {pl : ParsedPlugin}
    (h : parse_plugin fs p = .ok pl) : fsExists fs p = true := by
  unfold parse_plugin at h
  by_cases hd : fsIsDir fs p = true
  · unfold fsIsDir at hd
    unfold fsExists
    cases hg : fsGet fs p with
    | none => rw [hg] at hd; simp at hd
    | some m => simp
  · have hd' : fsIsDir fs p = false := by simpa using hd
    rw [hd'] at h
    simp at h

theorem installRest_success (yload : YLoad) (ydump : YDump) (fs : FS) (source : FPath)
    (plugin : ParsedPlugin) (n now : String) (st : AmpState)
    (res : InstallResult) (st' : AmpState)
    (h : installRest yload ydump fs source plugin n now st = (.ok res, st')) :
    ∃ rec, register_plugin n rec st.registry = .ok st'.registry ∧
      res.success = true := by
  unfold installRest at h
  repeat' split at h
  all_goals try (exact Except.noConfusion (congrArg Prod.fst h))
  all_goals (
    rw [Prod.mk.injEq] at h
    obtain ⟨hres, hst⟩ := h
    injection hres with hres
    subst hst
    exact ⟨_, by assumption, by rw [← hres]⟩)

/--
**C3**: the registry holds at most one record per plugin name.  Installing
a plugin whose name already has a registry record with `force = false`
returns a failed `AlreadyInstalled` result and leaves the state unchanged;
with `force = true` the already-installed rejection cannot fire, and a
successful install overwrites the existing record under the same name key
(the new registry is the in-place upsert: keys stay duplicate-free and the
unique binding for the name is the fresh record).
-/
theorem registry_unique_per_name (yload : YLoad) (ydump : YDump) (fs : FS)
    (source : FPath) (now : String) (st : AmpState)
    (es : List (String × PluginRec)) (plugin : ParsedPlugin) (n : String)
    (hreg : st.registry = some (.wf es))
    (hp : parse_plugin fs source = .ok plugin)
    (hn : plugin.manifest.name = .str n)
    (hrec : es.any (fun e => e.1 == n) = true) :
    (install_plugin yload ydump fs source false now st
       = (.ok ⟨false, n,
           "Plugin " ++ n ++ " already installed. Use --force to reinstall.",
           [], []⟩, st)) ∧
    (∀ res st', install_plugin yload ydump fs source true now st = (.ok res, st') →
       (es.map Prod.fst).Nodup →
       ∃ rec, st'.registry = some (.wf (upsert es n rec)) ∧
         ((upsert es n rec).map Prod.fst).Nodup ∧
         (upsert es n rec).find? (fun e => e.1 == n) = some (n, rec)) := by
  have hex := parse_plugin_ok_exists hp
  have hresolve : resolve_source fs source = .ok source := by
    unfold resolve_source
    rw [hex]
    simp
  constructor
  · have hcond : (es.any (fun e => e.1 == n) && !false) = true := by simp [hrec]
    unfold install_plugin
    simp only [hresolve, hp, hreg, get_installed_plugins, hn, hcond, if_true]
  · intro res st' hinst hnd
    have hcond : (es.any (fun e => e.1 == n) && !true) = false := by simp
    unfold install_plugin at hinst
    simp only [hresolve, hp, hreg, get_installed_plugins, hn, hcond,
      Bool.false_eq_true, if_false] at hinst
    obtain ⟨rec, hregeq, _⟩ :=
      installRest_success yload ydump fs source plugin n now st res st' hinst
    rw [hreg] at hregeq
    simp only [register_plugin] at hregeq
    injection hregeq with hregeq
    exact ⟨rec, hregeq.symm, upsert_keys_nodup es n rec hnd,
      find?_upsert_self es n rec⟩

/-- Witness for C3: reinstalling the already-registered `demo` plugin —
rejected without `force`, upserted (no duplicate key) with `force`. -/
theorem registry_unique_per_name_witness :
    install_plugin miniYamlLoad miniYamlDump fsMin ["p"] false "t1" stC7
      = (.ok ⟨false, "demo",
          "Plugin demo already installed. Use --force to reinstall.", [], []⟩, stC7) ∧
    ∃ rec,
      ((install_plugin miniYamlLoad miniYamlDump fsMin ["p"] true "t1" stC7).2).registry
        = some (.wf (upsert [("demo",
            (⟨"src", Yaml.str "1.0.0", "t0", ["plugins", "demo"], []⟩ : PluginRec))]
            "demo" rec)) ∧
      ((upsert [("demo",
          (⟨"src", Yaml.str "1.0.0", "t0", ["plugins", "demo"], []⟩ : PluginRec))]
          "demo" rec).map Prod.fst).Nodup := by
  have hmain := registry_unique_per_name miniYamlLoad miniYamlDump fsMin ["p"] "t1" stC7
    [("demo", ⟨"src", .str "1.0.0", "t0", ["plugins", "demo"], []⟩)] _ "demo"
    rfl rfl rfl rfl
  refine ⟨hmain.1, ?_⟩
  obtain ⟨rec, h1, h2, h3⟩ := hmain.2 _ _ rfl (by simp)
  exact ⟨rec, h1, h2⟩

/-! ## C1 — which failures the installer catches -/

/--
**C1** (counterexample): the claim states that any exception during steps
2-7 (parsing, the already-installed check, directory creation,
materialization, settings update, registry write) is caught and converted
into a failed `InstallResult`.  With a valid plugin and an unreadable
registry file, the `YAMLError` raised inside the already-installed check
(step 3) propagates out of `install_plugin` instead of being returned as a
failed result.
-/
theorem install_plugin_uncaught_counterexample :
    install_plugin miniYamlLoad miniYamlDump fsMin ["p"] false "t1" stMalformedReg
      = (.error .yamlError, stMalformedReg) := rfl

theorem installRest_registry (yload : YLoad) (ydump : YDump) (fs : FS)
    (source : FPath) (plugin : ParsedPlugin) (n now : String) (st : AmpState)
    (res : Except PyErr InstallResult) (st' : AmpState)
    (h : installRest yload ydump fs source plugin n now st = (res, st'))
    (hns : ∀ r, res = .ok r → r.success = false) :
    st'.registry = st.registry := by
  unfold installRest at h
  repeat' split at h
  all_goals (
    rw [Prod.mk.injEq] at h
    obtain ⟨hres, hst⟩ := h
    subst hst
    first
    | rfl
    | exact absurd (hns _ hres.symm) (by simp))

/--
**C1** (amended): `install_plugin` catches exceptions from source
resolution (step 1) and plugin parsing (step 2), converting them into
failed `InstallResult`s with the state untouched; exceptions raised in the
later steps propagate.  On every run whose outcome is not a successful
result — a caught failure, a failed result, or a propagated exception —
the registry file is left unchanged (the registry write is the last step).
-/
theorem install_plugin_error_containment (yload : YLoad) (ydump : YDump)
    (fs : FS) (source : FPath) (force : Bool) (now : String) (st : AmpState) :
    (fsExists fs source = false →
      install_plugin yload ydump fs source force now st
        = (.ok ⟨false, "unknown", "Failed to resolve source", [], []⟩, st)) ∧
    (∀ e, fsExists fs source = true → parse_plugin fs source = .error e →
      install_plugin yload ydump fs source force now st
        = (.ok ⟨false, "unknown", "Failed to parse plugin", [], []⟩, st)) ∧
    (∀ res st', install_plugin yload ydump fs source force now st = (res, st') →
      (∀ r, res = .ok r → r.success = false) →
      st'.registry = st.registry) := by
  refine ⟨?_, ?_, ?_⟩
  · intro hne
    have hrs : resolve_source fs source = .error .valueError := by
      unfold resolve_source
      rw [hne]
      simp
    unfold install_plugin
    simp only [hrs]
  · intro e hex hpe
    have hrs : resolve_source fs source = .ok source := by
      unfold resolve_source
      rw [hex]
      simp
    unfold install_plugin
    simp only [hrs, hpe]
  · intro res st' hinst hns
    unfold install_plugin at hinst
    repeat' split at hinst
    all_goals first
      | (rw [Prod.mk.injEq] at hinst
         obtain ⟨hres, hst⟩ := hinst
         subst hst
         rfl)
      | exact installRest_registry yload ydump fs source _ _ now st res st' hinst hns

/-- Witness for C1's amended theorem: an unresolvable source and an
invalid plugin both yield caught failures with the state unchanged, and a
propagated registry-read exception leaves the registry as it was. -/
theorem install_plugin_error_containment_witness :
    install_plugin miniYamlLoad miniYamlDump [] ["nope"] false "t" stC7
      = (.ok ⟨false, "unknown", "Failed to resolve source", [], []⟩, stC7) ∧
    install_plugin miniYamlLoad miniYamlDump [(["d"], .dir)] ["d"] false "t" stC7
      = (.ok ⟨false, "unknown", "Failed to parse plugin", [], []⟩, stC7) ∧
    ((install_plugin miniYamlLoad miniYamlDump fsMin ["p"] false "t" stMalformedReg).2).registry
      = stMalformedReg.registry := by
  refine ⟨?_, ?_, ?_⟩
  · exact (install_plugin_error_containment miniYamlLoad miniYamlDump [] ["nope"]
      false "t" stC7).1 rfl
  · exact (install_plugin_error_containment miniYamlLoad miniYamlDump
      [(["d"], .dir)] ["d"] false "t" stC7).2.1 .valueError rfl rfl
  · exact (install_plugin_error_containment miniYamlLoad miniYamlDump fsMin ["p"]
      false "t" stMalformedReg).2.2 (.error .yamlError) stMalformedReg rfl
      (fun r h => Except.noConfusion h)

/-! ## C10 — hooks scripts without a `hooks.json` config -/

theorem mem_eraseDupsLoop (x : String) (as bs : List String) :
    x ∈ List.eraseDups.loop as bs ↔ x ∈ as ∨ x ∈ bs := by
  induction as generalizing bs with
  | nil => simp [List.eraseDups.loop]
  | cons a as ih =>
    cases h : bs.elem a with
    | true =>
      have ha : a ∈ bs := List.elem_iff.mp h
      simp only [List.eraseDups.loop, h, ih, List.mem_cons]
      constructor
      · intro g; tauto
      · rintro (g | g)
        · rcases g with g | g
          · subst g; tauto
          · tauto
        · tauto
    | false =>
      simp only [List.eraseDups.loop, h, ih, List.mem_cons]
      tauto

theorem mem_eraseDups_str (x : String) (l : List String) :
    x ∈ l.eraseDups ↔ x ∈ l := by
  unfold List.eraseDups
  rw [mem_eraseDupsLoop]
  simp

theorem mem_insortStr (x a : String) (l : List String) :
    x ∈ insortStr a l ↔ x = a ∨ x ∈ l := by
  induction l with
  | nil => simp [insortStr]
  | cons b rest ih =>
    unfold insortStr
    split
    · simp [List.mem_cons]
    · simp only [List.mem_cons, ih]
      tauto

theorem mem_isortStr (x : String) (l : List String) :
    x ∈ isortStr l ↔ x ∈ l := by
  induction l with
  | nil => simp [isortStr]
  | cons a rest ih => simp [isortStr, mem_insortStr, ih]

theorem fsExists_iff (fs : FS) (q : FPath) :
    fsExists fs q = true ↔ ∃ e ∈ fs, e.1 = q := by
  unfold fsExists fsGet
  cases hfind : fs.find? (fun e => e.1 == q) with
  | none =>
    simp only [Option.map_none', Option.isSome_none, Bool.false_eq_true, false_iff]
    rw [List.find?_eq_none] at hfind
    rintro ⟨e, he, hk⟩
    exact absurd (by simpa using hk) (by simpa using hfind e he)
  | some e =>
    simp only [Option.map_some', Option.isSome_some, true_iff]
    refine ⟨e, List.mem_of_find?_eq_some hfind, ?_⟩
    have := List.find?_some hfind
    simpa using this

theorem mem_childNames (fs : FS) (p : FPath) (nm : String) :
    nm ∈ childNames fs p ↔ fsExists fs (p ++ [nm]) = true := by
  unfold childNames
  rw [mem_eraseDups_str, List.mem_filterMap, fsExists_iff]
  constructor
  · rintro ⟨e, he, hf⟩
    by_cases hc : (e.1.length == p.length + 1 && e.1.take p.length == p) = true
    · rw [if_pos hc] at hf
      have hparts := (Bool.and_eq_true _ _).mp hc
      have hlen : e.1.length = p.length + 1 := by
        have := hparts.1; simpa using this
      have htake : e.1.take p.length = p := by
        have := hparts.2; simpa using this
      have hsplit := List.take_append_drop p.length e.1
      have hdlen : (e.1.drop p.length).length = 1 := by
        rw [List.length_drop, hlen]; omega
      obtain ⟨c, hc2⟩ := List.length_eq_one.mp hdlen
      have he1 : e.1 = p ++ [c] := by
        rw [← hsplit, htake, hc2]
      rw [he1, List.getLast?_concat] at hf
      injection hf with hf
      subst hf
      exact ⟨e, he, he1⟩
    · rw [if_neg hc] at hf
      exact Option.noConfusion hf
  · rintro ⟨e, he, hk⟩
    refine ⟨e, he, ?_⟩
    rw [hk]
    have hcond : (((p ++ [nm]).length == p.length + 1) &&
        ((p ++ [nm]).take p.length == p)) = true := by
      rw [List.take_left]
      simp
    rw [if_pos hcond, List.getLast?_concat]

theorem mem_globExt (fs : FS) (dirp : FPath) (ext : String) (nm : String) :
    nm ∈ globExt fs dirp ext ↔
      (fsExists fs (dirp ++ [nm]) = true ∧
       ext.toList.isSuffixOf nm.toList = true) := by
  unfold globExt
  rw [List.mem_filter, mem_childNames]

theorem mem_hooks_script_list (fs : FS) (root : FPath) (nm : String) :
    (root ++ ["hooks", nm]) ∈
      ((isortStr (globExt fs (root ++ ["hooks"]) ".sh" ++
                  globExt fs (root ++ ["hooks"]) ".py" ++
                  globExt fs (root ++ ["hooks"]) ".cmd")).map
        (fun n => root ++ ["hooks", n])) ↔
      (fsExists fs (root ++ ["hooks", nm]) = true ∧
       (".sh".toList.isSuffixOf nm.toList = true ∨
        ".py".toList.isSuffixOf nm.toList = true ∨
        ".cmd".toList.isSuffixOf nm.toList = true)) := by
  have harr : root ++ ["hooks"] ++ [nm] = root ++ ["hooks", nm] := by simp
  rw [List.mem_map]
  constructor
  · rintro ⟨a, ha, heq⟩
    have haeq : a = nm := by
      have := List.append_cancel_left heq
      simpa using this
    subst haeq
    rw [mem_isortStr, List.mem_append, List.mem_append] at ha
    rcases ha with (h1 | h2) | h3
    · obtain ⟨hex, hsuf⟩ := (mem_globExt fs (root ++ ["hooks"]) ".sh" a).mp h1
      rw [harr] at hex
      exact ⟨hex, Or.inl hsuf⟩
    · obtain ⟨hex, hsuf⟩ := (mem_globExt fs (root ++ ["hooks"]) ".py" a).mp h2
      rw [harr] at hex
      exact ⟨hex, Or.inr (Or.inl hsuf)⟩
    · obtain ⟨hex, hsuf⟩ := (mem_globExt fs (root ++ ["hooks"]) ".cmd" a).mp h3
      rw [harr] at hex
      exact ⟨hex, Or.inr (Or.inr hsuf)⟩
  · rintro ⟨hex, hsuf⟩
    refine ⟨nm, ?_, rfl⟩
    rw [mem_isortStr, List.mem_append, List.mem_append]
    have hex' : fsExists fs (root ++ ["hooks"] ++ [nm]) = true := by
      rw [harr]; exact hex
    rcases hsuf with h | h | h
    · exact Or.inl (Or.inl ((mem_globExt fs (root ++ ["hooks"]) ".sh" nm).mpr ⟨hex', h⟩))
    · exact Or.inl (Or.inr ((mem_globExt fs (root ++ ["hooks"]) ".py" nm).mpr ⟨hex', h⟩))
    · exact Or.inr ((mem_globExt fs (root ++ ["hooks"]) ".cmd" nm).mpr ⟨hex', h⟩)

theorem fsExists_of_isDir (fs : FS) (p : FPath) (h : fsIsDir fs p = true) :
    fsExists fs p = true := by
  unfold fsIsDir at h
  unfold fsExists
  cases hg : fsGet fs p with
  | none => rw [hg] at h; exact absurd h (by simp)
  | some m => simp

theorem discover_hooks_no_json (fs : FS) (root : FPath)
    (hdir : fsIsDir fs (root ++ ["hooks"]) = true)
    (hnoj : fsExists fs (root ++ ["hooks", "hooks.json"]) = false) :
    discover_hooks fs root =
      .ok (none, (isortStr (globExt fs (root ++ ["hooks"]) ".sh" ++
                  globExt fs (root ++ ["hooks"]) ".py" ++
                  globExt fs (root ++ ["hooks"]) ".cmd")).map
        (fun n => root ++ ["hooks", n])) := by
  unfold discover_hooks
  rw [fsExists_of_isDir fs (root ++ ["hooks"]) hdir, hnoj]
  simp

theorem parse_plugin_hooks (fs : FS) (ppath : FPath) (plugin : ParsedPlugin)
    (h : parse_plugin fs ppath = .ok plugin) :
    discover_hooks fs ppath = .ok (plugin.hooks_config, plugin.hooks_scripts) := by
  unfold parse_plugin at h
  repeat' split at h
  all_goals try (exact Except.noConfusion h)
  injection h with h
  subst h
  assumption

theorem exceptBindOk {α β : Type} (a : α) (f : α → Except PyErr β) :
    (Except.ok a : Except PyErr α) >>= f = f a := rfl

theorem exceptBindErr {α β : Type} (e : PyErr) (f : α → Except PyErr β) :
    (Except.error e : Except PyErr α) >>= f = .error e := rfl

theorem fsGet_cons_ne (e : FPath × FNode) (fs : FS) (q : FPath) (h : e.1 ≠ q) :
    fsGet (e :: fs) q = fsGet fs q := by
  unfold fsGet
  simp only [List.find?_cons]
  have hbe : (e.1 == q) = false := by simpa using h
  simp only [hbe]

theorem fsGet_filter_keep (fs : FS) (q : FPath) (c : FPath × FNode → Bool)
    (h : ∀ e : FPath × FNode, e.1 = q → c e = true) :
    fsGet (fs.filter c) q = fsGet fs q := by
  induction fs with
  | nil => rfl
  | cons hd tl ih =>
    by_cases hk : hd.1 = q
    · have hc : c hd = true := h hd hk
      rw [List.filter_cons_of_pos hc]
      unfold fsGet
      simp only [List.find?_cons]
      have hbe : (hd.1 == q) = true := by simpa using hk
      simp only [hbe]
    · cases hc : c hd with
      | true =>
        rw [List.filter_cons_of_pos hc]
        unfold fsGet at ih ⊢
        simp only [List.find?_cons]
        have hbe : (hd.1 == q) = false := by simpa using hk
        simp only [hbe]
        exact ih
      | false =>
        rw [List.filter_cons_of_neg (by simp [hc])]
        rw [ih]
        unfold fsGet
        simp only [List.find?_cons]
        have hbe : (hd.1 == q) = false := by simpa using hk
        simp only [hbe]

theorem fsGet_append_none (l1 l2 : FS) (q : FPath)
    (h : ∀ e ∈ l1, e.1 ≠ q) :
    fsGet (l1 ++ l2) q = fsGet l2 q := by
  unfold fsGet
  rw [List.find?_append]
  have hn : l1.find? (fun e => e.1 == q) = none := by
    rw [List.find?_eq_none]
    intro e he
    simpa using h e he
  rw [hn, Option.none_or]

theorem writeFile_pres (fs : FS) (p : FPath) (s : String) (q : FPath) (h : p ≠ q) :
    fsGet (writeFile fs p s) q = fsGet fs q := by
  unfold writeFile
  rw [fsGet_cons_ne _ _ _ h]
  exact fsGet_filter_keep _ _ _ (fun e he => by
    rw [he]
    simp only [bne_iff_ne, ne_eq]
    exact fun g => h g.symm)

theorem addSymlink_pres (fs : FS) (p tgt q : FPath) (h : p ≠ q) :
    fsGet (addSymlink fs p tgt) q = fsGet fs q := by
  unfold addSymlink
  exact fsGet_cons_ne _ _ _ h

theorem fsRemoveEntry_pres (fs : FS) (p q : FPath) (h : p ≠ q) :
    fsGet (fsRemoveEntry fs p) q = fsGet fs q := by
  unfold fsRemoveEntry
  exact fsGet_filter_keep _ _ _ (fun e he => by
    rw [he]
    simp only [bne_iff_ne, ne_eq]
    exact fun g => h g.symm)

theorem rmtree_pres (fs : FS) (p : FPath) (h' : FS) (q : FPath)
    (h : rmtree fs p = .ok h') (hq : p.isPrefixOf q = false) :
    fsGet h' q = fsGet fs q := by
  unfold rmtree at h
  cases hg : fsGet fs p with
  | none => rw [hg] at h; exact Except.noConfusion h
  | some m =>
    cases m with
    | dir =>
      rw [hg] at h
      injection h with h
      rw [← h]
      exact fsGet_filter_keep _ _ _ (fun e he => by rw [he]; simp [hq])
    | file d => rw [hg] at h; exact Except.noConfusion h
    | symlink t => rw [hg] at h; exact Except.noConfusion h

theorem copyFile_pres (src : FS) (sp : FPath) (dst : FS) (dp : FPath) (h' : FS)
    (q : FPath) (h : copyFile src sp dst dp = .ok h') (hq : dp ≠ q) :
    fsGet h' q = fsGet dst q := by
  unfold copyFile at h
  cases hg : fsGet src sp with
  | none => rw [hg] at h; exact Except.noConfusion h
  | some m =>
    cases m with
    | dir => rw [hg] at h; exact Except.noConfusion h
    | file d =>
      rw [hg] at h
      injection h with h
      rw [← h]
      rw [fsGet_cons_ne _ _ _ hq]
      exact fsGet_filter_keep _ _ _ (fun e he => by
        rw [he]
        simp only [bne_iff_ne, ne_eq]
        exact fun g => hq g.symm)
    | symlink t => rw [hg] at h; exact Except.noConfusion h

theorem copyTree_pres (src : FS) (sr : FPath) (dst : FS) (dr : FPath) (h' : FS)
    (q : FPath) (h : copyTree src sr dst dr = .ok h')
    (hq : dr.isPrefixOf q = false) :
    fsGet h' q = fsGet dst q := by
  unfold copyTree at h
  cases hg : fsGet src sr with
  | none => rw [hg] at h; exact Except.noConfusion h
  | some m =>
    cases m with
    | file d => rw [hg] at h; exact Except.noConfusion h
    | symlink t => rw [hg] at h; exact Except.noConfusion h
    | dir =>
      rw [hg] at h
      by_cases hex : fsExists dst dr = true
      · rw [if_pos hex] at h; exact Except.noConfusion h
      · rw [if_neg hex] at h
        injection h with h
        rw [← h]
        apply fsGet_append_none
        intro e he hek
        rw [List.mem_filterMap] at he
        obtain ⟨a, _, hf⟩ := he
        by_cases hpre : sr.isPrefixOf a.1 = true
        · rw [if_pos hpre] at hf
          injection hf with hf
          have hkey : e.1 = dr ++ a.1.drop sr.length := by rw [← hf]
          have hpq : dr.isPrefixOf q = true := by
            rw [← hek, hkey]
            exact List.isPrefixOf_iff_prefix.mpr (List.prefix_append _ _)
          rw [hq] at hpq
          exact Bool.noConfusion hpq
        · rw [if_neg hpre] at hf
          exact Option.noConfusion hf

theorem mkdirPGo_pres (q : FPath) : ∀ (ps : List FPath) (fs h' : FS),
    (ps.foldlM (fun acc p =>
      match fsGet acc p with
      | none => .ok ((p, FNode.dir) :: acc)
      | some .dir => .ok acc
      | some _ => .error .osError) fs = (.ok h' : Except PyErr FS)) →
    (∀ pre ∈ ps, pre ≠ q) → fsGet h' q = fsGet fs q := by
  intro ps
  induction ps with
  | nil =>
    intro fs h' h hq
    rw [List.foldlM_nil] at h
    injection h with h
    rw [← h]
  | cons p ps ih =>
    intro fs h' h hq
    rw [List.foldlM_cons] at h
    have hp : p ≠ q := hq p (by simp)
    have hq' : ∀ pre ∈ ps, pre ≠ q := fun pre hm => hq pre (by simp [hm])
    cases hg : fsGet fs p with
    | none =>
      simp only [hg, exceptBindOk] at h
      rw [ih _ _ h hq']
      exact fsGet_cons_ne _ _ _ hp
    | some m =>
      cases m with
      | dir =>
        simp only [hg, exceptBindOk] at h
        exact ih _ _ h hq'
      | file d =>
        simp only [hg, exceptBindErr] at h
        exact Except.noConfusion h
      | symlink t =>
        simp only [hg, exceptBindErr] at h
        exact Except.noConfusion h

theorem mkdirP_pres (fs : FS) (p : FPath) (h' : FS) (q : FPath)
    (h : mkdirP fs p = .ok h') (hq : ∀ pre ∈ pathPrefixes p, pre ≠ q) :
    fsGet h' q = fsGet fs q := by
  unfold mkdirP at h
  exact mkdirPGo_pres q (pathPrefixes p) fs h' h hq

theorem pathPrefixes_single (a : String) : pathPrefixes [a] = [[a]] := rfl

theorem pathPrefixes_pair (a b : String) : pathPrefixes [a, b] = [[a], [a, b]] := rfl

theorem pathPrefixes_triple (a b c : String) :
    pathPrefixes [a, b, c] = [[a], [a, b], [a, b, c]] := rfl

theorem installSkills_pres (fs : FS) (plugin : ParsedPlugin) (n : String)
    (home : FS) (res : Except PyErr (List String)) (h' : FS) (t : List String)
    (h : installSkills fs plugin n home = (res, h')) :
    fsGet h' ("plugins" :: n :: "hooks" :: t) =
      fsGet home ("plugins" :: n :: "hooks" :: t) := by
  unfold installSkills at h
  cases h1 : (if fsExists home ["plugins", n, "skills"] then
      rmtree home ["plugins", n, "skills"] else (.ok home : Except PyErr FS)) with
  | error e =>
    simp only [h1] at h
    rw [Prod.mk.injEq] at h
    rw [← h.2]
  | ok h1v =>
    have p1 : fsGet h1v ("plugins" :: n :: "hooks" :: t) =
        fsGet home ("plugins" :: n :: "hooks" :: t) := by
      by_cases hex : fsExists home ["plugins", n, "skills"] = true
      · rw [if_pos hex] at h1
        exact rmtree_pres _ _ _ _ h1 (by simp [List.isPrefixOf])
      · rw [if_neg hex] at h1
        injection h1 with h1
        rw [← h1]
    simp only [h1] at h
    cases h2 : copyTree fs (plugin.root ++ ["skills"]) h1v ["plugins", n, "skills"] with
    | error e =>
      simp only [h2] at h
      rw [Prod.mk.injEq] at h
      rw [← h.2]
      exact p1
    | ok h2v =>
      have p2 : fsGet h2v ("plugins" :: n :: "hooks" :: t) =
          fsGet h1v ("plugins" :: n :: "hooks" :: t) :=
        copyTree_pres _ _ _ _ _ _ h2 (by simp [List.isPrefixOf])
      simp only [h2] at h
      cases h3 : mkdirP h2v ["skills"] with
      | error e =>
        simp only [h3] at h
        rw [Prod.mk.injEq] at h
        rw [← h.2]
        exact p2.trans p1
      | ok h3v =>
        have p3 : fsGet h3v ("plugins" :: n :: "hooks" :: t) =
            fsGet h2v ("plugins" :: n :: "hooks" :: t) := by
          refine mkdirP_pres _ _ _ _ h3 ?_
          rw [pathPrefixes_single]
          intro pre hm
          simp only [List.mem_singleton] at hm
          subst hm
          simp
        simp only [h3] at h
        cases h4 : (match fsGet h3v ["skills", n] with
            | some (.symlink _) =>
                (.ok (fsRemoveEntry h3v ["skills", n]) : Except PyErr FS)
            | some .dir => rmtree h3v ["skills", n]
            | some (.file _) => rmtree h3v ["skills", n]
            | none => .ok h3v) with
        | error e =>
          simp only [h4] at h
          rw [Prod.mk.injEq] at h
          rw [← h.2]
          exact p3.trans (p2.trans p1)
        | ok h4v =>
          have p4 : fsGet h4v ("plugins" :: n :: "hooks" :: t) =
              fsGet h3v ("plugins" :: n :: "hooks" :: t) := by
            cases hg : fsGet h3v ["skills", n] with
            | none =>
              simp only [hg] at h4
              injection h4 with h4
              rw [← h4]
            | some m =>
              cases m with
              | symlink tg =>
                simp only [hg] at h4
                injection h4 with h4
                rw [← h4]
                exact fsRemoveEntry_pres _ _ _ (by simp)
              | dir =>
                simp only [hg] at h4
                exact rmtree_pres _ _ _ _ h4 (by simp [List.isPrefixOf])
              | file d =>
                simp only [hg] at h4
                exact rmtree_pres _ _ _ _ h4 (by simp [List.isPrefixOf])
          simp only [h4] at h
          rw [Prod.mk.injEq] at h
          rw [← h.2]
          rw [addSymlink_pres _ _ _ _ (by simp)]
          exact p4.trans (p3.trans (p2.trans p1))

theorem installAgentsGo_pres (yload : YLoad) (ydump : YDump) (fs : FS)
    (n : String) (t : List String) : ∀ (aps : List FPath) (h0 : FS)
    (res : Except PyErr (List String)) (h' : FS),
    installAgentsGo yload ydump fs n aps h0 = (res, h') →
    fsGet h' ("plugins" :: n :: "hooks" :: t) =
      fsGet h0 ("plugins" :: n :: "hooks" :: t) := by
  intro aps
  induction aps with
  | nil =>
    intro h0 res h' h
    unfold installAgentsGo at h
    rw [Prod.mk.injEq] at h
    rw [← h.2]
  | cons ap rest ih =>
    intro h0 res h' h
    unfold installAgentsGo at h
    cases hr : readText fs ap with
    | error e =>
      simp only [hr] at h
      rw [Prod.mk.injEq] at h
      rw [← h.2]
    | ok content =>
      simp only [hr] at h
      cases ht : translate_agent yload ydump content with
      | error e =>
        simp only [ht] at h
        rw [Prod.mk.injEq] at h
        rw [← h.2]
      | ok translated =>
        simp only [ht] at h
        cases hrec : installAgentsGo yload ydump fs n rest
            (writeFile h0 ["agents", n, ap.getLastD ""] translated) with
        | mk rr h2 =>
          have prec := ih _ _ _ hrec
          have pw : fsGet (writeFile h0 ["agents", n, ap.getLastD ""] translated)
              ("plugins" :: n :: "hooks" :: t) =
              fsGet h0 ("plugins" :: n :: "hooks" :: t) :=
            writeFile_pres _ _ _ _ (by simp)
          cases rr with
          | error e =>
            simp only [hrec] at h
            rw [Prod.mk.injEq] at h
            rw [← h.2]
            exact prec.trans pw
          | ok names =>
            simp only [hrec] at h
            rw [Prod.mk.injEq] at h
            rw [← h.2]
            exact prec.trans pw

theorem installAgents_pres (yload : YLoad) (ydump : YDump) (fs : FS)
    (plugin : ParsedPlugin) (n : String) (home : FS)
    (res : Except PyErr (List String)) (h' : FS) (t : List String)
    (h : installAgents yload ydump fs plugin n home = (res, h')) :
    fsGet h' ("plugins" :: n :: "hooks" :: t) =
      fsGet home ("plugins" :: n :: "hooks" :: t) := by
  unfold installAgents at h
  cases hm : mkdirP home ["agents", n] with
  | error e =>
    simp only [hm] at h
    rw [Prod.mk.injEq] at h
    rw [← h.2]
  | ok h0 =>
    simp only [hm] at h
    have pm : fsGet h0 ("plugins" :: n :: "hooks" :: t) =
        fsGet home ("plugins" :: n :: "hooks" :: t) := by
      refine mkdirP_pres _ _ _ _ hm ?_
      rw [pathPrefixes_pair]
      intro pre hm2
      simp only [List.mem_cons, List.not_mem_nil, or_false] at hm2
      rcases hm2 with rfl | rfl <;> simp
    exact (installAgentsGo_pres yload ydump fs n t _ _ _ _ h).trans pm

theorem installCommandsGo_pres (fs : FS) (n : String) (t : List String) :
    ∀ (cps : List FPath) (h0 : FS) (res : Except PyErr (List String)) (h' : FS),
    installCommandsGo fs n cps h0 = (res, h') →
    fsGet h' ("plugins" :: n :: "hooks" :: t) =
      fsGet h0 ("plugins" :: n :: "hooks" :: t) := by
  intro cps
  induction cps with
  | nil =>
    intro h0 res h' h
    unfold installCommandsGo at h
    rw [Prod.mk.injEq] at h
    rw [← h.2]
  | cons cp rest ih =>
    intro h0 res h' h
    unfold installCommandsGo at h
    cases hc : copyFile fs cp h0 ["plugins", n, "commands", cp.getLastD ""] with
    | error e =>
      simp only [hc] at h
      rw [Prod.mk.injEq] at h
      rw [← h.2]
    | ok h1 =>
      simp only [hc] at h
      have pc : fsGet h1 ("plugins" :: n :: "hooks" :: t) =
          fsGet h0 ("plugins" :: n :: "hooks" :: t) :=
        copyFile_pres _ _ _ _ _ _ hc (by simp)
      cases hrec : installCommandsGo fs n rest h1 with
      | mk rr h2 =>
        have prec := ih _ _ _ hrec
        cases rr with
        | error e =>
          simp only [hrec] at h
          rw [Prod.mk.injEq] at h
          rw [← h.2]
          exact prec.trans pc
        | ok names =>
          simp only [hrec] at h
          rw [Prod.mk.injEq] at h
          rw [← h.2]
          exact prec.trans pc

theorem installCommands_pres (fs : FS) (plugin : ParsedPlugin) (n : String)
    (home : FS) (res : Except PyErr (List String)) (h' : FS) (t : List String)
    (h : installCommands fs plugin n home = (res, h')) :
    fsGet h' ("plugins" :: n :: "hooks" :: t) =
      fsGet home ("plugins" :: n :: "hooks" :: t) := by
  unfold installCommands at h
  cases hm : mkdirP home ["plugins", n, "commands"] with
  | error e =>
    simp only [hm] at h
    rw [Prod.mk.injEq] at h
    rw [← h.2]
  | ok h0 =>
    simp only [hm] at h
    have pm : fsGet h0 ("plugins" :: n :: "hooks" :: t) =
        fsGet home ("plugins" :: n :: "hooks" :: t) := by
      refine mkdirP_pres _ _ _ _ hm ?_
      rw [pathPrefixes_triple]
      intro pre hm2
      simp only [List.mem_cons, List.not_mem_nil, or_false] at hm2
      rcases hm2 with rfl | rfl | rfl <;> simp
    exact (installCommandsGo_pres fs n t _ _ _ _ h).trans pm

theorem stageSkills_pres (fs : FS) (plugin : ParsedPlugin) (n : String) (h0 : FS)
    (res : Except PyErr (Option (List String))) (h1 : FS) (t : List String)
    (h : ((if plugin.has_skills then
            match installSkills fs plugin n h0 with
            | (.error e, h) => (.error e, h)
            | (.ok names, h) => (.ok (some names), h)
          else ((.ok none : Except PyErr (Option (List String))), h0)) :
            Except PyErr (Option (List String)) × FS) = (res, h1)) :
    fsGet h1 ("plugins" :: n :: "hooks" :: t) =
      fsGet h0 ("plugins" :: n :: "hooks" :: t) := by
  by_cases hsk : plugin.has_skills = true
  · rw [if_pos hsk] at h
    cases hse : installSkills fs plugin n h0 with
    | mk rr hh =>
      cases rr with
      | error e =>
        simp only [hse] at h
        rw [Prod.mk.injEq] at h
        rw [← h.2]
        exact installSkills_pres _ _ _ _ _ _ t hse
      | ok names =>
        simp only [hse] at h
        rw [Prod.mk.injEq] at h
        rw [← h.2]
        exact installSkills_pres _ _ _ _ _ _ t hse
  · rw [if_neg hsk] at h
    rw [Prod.mk.injEq] at h
    rw [← h.2]

theorem stageAgents_pres (yload : YLoad) (ydump : YDump) (fs : FS)
    (plugin : ParsedPlugin) (n : String) (h1 : FS)
    (res : Except PyErr (Option (List String))) (h2 : FS) (t : List String)
    (h : ((if plugin.has_agents then
            match installAgents yload ydump fs plugin n h1 with
            | (.error e, h) => (.error e, h)
            | (.ok names, h) => (.ok (some names), h)
          else ((.ok none : Except PyErr (Option (List String))), h1)) :
            Except PyErr (Option (List String)) × FS) = (res, h2)) :
    fsGet h2 ("plugins" :: n :: "hooks" :: t) =
      fsGet h1 ("plugins" :: n :: "hooks" :: t) := by
  by_cases hsk : plugin.has_agents = true
  · rw [if_pos hsk] at h
    cases hse : installAgents yload ydump fs plugin n h1 with
    | mk rr hh =>
      cases rr with
      | error e =>
        simp only [hse] at h
        rw [Prod.mk.injEq] at h
        rw [← h.2]
        exact installAgents_pres _ _ _ _ _ _ _ _ t hse
      | ok names =>
        simp only [hse] at h
        rw [Prod.mk.injEq] at h
        rw [← h.2]
        exact installAgents_pres _ _ _ _ _ _ _ _ t hse
  · rw [if_neg hsk] at h
    rw [Prod.mk.injEq] at h
    rw [← h.2]

theorem stageCommands_pres (fs : FS) (plugin : ParsedPlugin) (n : String)
    (h2 : FS) (res : Except PyErr (Option (List String))) (h3 : FS)
    (t : List String)
    (h : ((if plugin.has_commands then
            match installCommands fs plugin n h2 with
            | (.error e, h) => (.error e, h)
            | (.ok names, h) => (.ok (some names), h)
          else ((.ok none : Except PyErr (Option (List String))), h2)) :
            Except PyErr (Option (List String)) × FS) = (res, h3)) :
    fsGet h3 ("plugins" :: n :: "hooks" :: t) =
      fsGet h2 ("plugins" :: n :: "hooks" :: t) := by
  by_cases hsk : plugin.has_commands = true
  · rw [if_pos hsk] at h
    cases hse : installCommands fs plugin n h2 with
    | mk rr hh =>
      cases rr with
      | error e =>
        simp only [hse] at h
        rw [Prod.mk.injEq] at h
        rw [← h.2]
        exact installCommands_pres _ _ _ _ _ _ t hse
      | ok names =>
        simp only [hse] at h
        rw [Prod.mk.injEq] at h
        rw [← h.2]
        exact installCommands_pres _ _ _ _ _ _ t hse
  · rw [if_neg hsk] at h
    rw [Prod.mk.injEq] at h
    rw [← h.2]

theorem stageHooks_noHooks (fs : FS) (plugin : ParsedPlugin) (n : String)
    (h3 : FS) (res : Except PyErr Bool) (h4 : FS)
    (h : ((if plugin.has_hooks then
            match installHooks fs plugin n h3 with
            | (.error e, h) => (.error e, h)
            | (.ok _, h) => (.ok true, h)
          else ((.ok false : Except PyErr Bool), h3)) :
            Except PyErr Bool × FS) = (res, h4))
    (hfh : plugin.has_hooks = false) :
    res = .ok false ∧ h4 = h3 := by
  rw [if_neg (by simp [hfh])] at h
  rw [Prod.mk.injEq] at h
  exact ⟨h.1.symm, h.2.symm⟩

theorem find?_hooks_none (sk ag cm : Option (List String)) (mc : Bool) :
    (((match sk with
       | some l => [("skills", Yaml.list (l.map .str))]
       | none => []) ++
      (match ag with
       | some l => [("agents", Yaml.list (l.map .str))]
       | none => []) ++
      (match cm with
       | some l => [("commands", Yaml.list (l.map .str))]
       | none => []) ++
      (if false then [("hooks", Yaml.bool true)] else []) ++
      (if mc then [("mcp", Yaml.bool true)] else [])) :
        List (String × Yaml)).find? (fun e => e.1 == "hooks") = none := by
  rcases sk with _ | l1 <;> rcases ag with _ | l2 <;> rcases cm with _ | l3 <;>
    cases mc <;> simp [List.find?]

theorem warn_hooks_not_mem (cm : Option (List String)) :
    "Hooks installed but require manual bundle configuration" ∉
      (((match cm with
         | some _ =>
           ["Commands installed but may need tool-slash-command for full support"]
         | none => []) ++
        (if false then
           ["Hooks installed but require manual bundle configuration"]
         else [])) : List String) := by
  rcases cm with _ | l <;> simp

theorem mkdirPluginsN_pres (home : FS) (n : String) (h0 : FS) (t : List String)
    (h : mkdirP home ["plugins", n] = .ok h0) :
    fsGet h0 ("plugins" :: n :: "hooks" :: t) =
      fsGet home ("plugins" :: n :: "hooks" :: t) := by
  refine mkdirP_pres _ _ _ _ h ?_
  rw [pathPrefixes_pair]
  intro pre hm2
  simp only [List.mem_cons, List.not_mem_nil, or_false] at hm2
  rcases hm2 with rfl | rfl <;> simp

theorem installRest_noHooks (yload : YLoad) (ydump : YDump) (fs : FS)
    (source : FPath) (plugin : ParsedPlugin) (n now : String) (st : AmpState)
    (r : InstallResult) (st' : AmpState)
    (h : installRest yload ydump fs source plugin n now st = (.ok r, st'))
    (hfh : plugin.has_hooks = false) :
    r.plugin_name = n ∧
    r.installed_components.find? (fun e => e.1 == "hooks") = none ∧
    "Hooks installed but require manual bundle configuration" ∉ r.warnings ∧
    ∀ t, fsGet st'.home ("plugins" :: n :: "hooks" :: t) =
      fsGet st.home ("plugins" :: n :: "hooks" :: t) := by
  unfold installRest at h
  repeat' split at h
  all_goals try (exact Except.noConfusion (congrArg Prod.fst h))
  all_goals (
    rw [Prod.mk.injEq] at h
    obtain ⟨hres, hst⟩ := h
    injection hres with hres
    obtain ⟨hdone, h43⟩ := stageHooks_noHooks _ _ _ _ _ _ (by assumption) hfh
    injection hdone with hdone
    subst hdone
    subst hres
    subst hst
    first
    | exact absurd (by assumption : (false = true)) (by simp)
    | (refine ⟨rfl, by simp [List.find?], by simp, ?_⟩
       intro t
       exact (congrArg (fun z => fsGet z ("plugins" :: n :: "hooks" :: t)) h43).trans
         ((stageCommands_pres _ _ _ _ _ _ t (by assumption)).trans
           ((stageAgents_pres _ _ _ _ _ _ _ _ t (by assumption)).trans
             ((stageSkills_pres _ _ _ _ _ _ t (by assumption)).trans
               (mkdirPluginsN_pres _ _ _ t (by assumption)))))))

/--
**C10**: for a plugin whose `hooks/` directory exists but holds no
`hooks.json`, parsing leaves `hooks_config` as `None` while `hooks_scripts`
still lists exactly the `*.sh`/`*.py`/`*.cmd` entries of the directory, and
`has_hooks` is `False`; a successful `install_plugin` run on such a plugin
performs no hooks materialization: nothing under the install directory's
`hooks/` subtree is created or changed, no `hooks` entry appears among the
installed components, and the hooks warning is not emitted.
-/
theorem hooks_scripts_without_config (yload : YLoad) (ydump : YDump) (fs : FS)
    (ppath : FPath) (plugin : ParsedPlugin) (force : Bool) (now : String)
    (st st' : AmpState) (r : InstallResult)
    (hdir : fsIsDir fs (ppath ++ ["hooks"]) = true)
    (hnoj : fsExists fs (ppath ++ ["hooks", "hooks.json"]) = false)
    (hp : parse_plugin fs ppath = .ok plugin)
    (hins : install_plugin yload ydump fs ppath force now st = (.ok r, st'))
    (hsucc : r.success = true) :
    plugin.hooks_config = none ∧
    plugin.has_hooks = false ∧
    (∀ nm : String,
      (ppath ++ ["hooks", nm]) ∈ plugin.hooks_scripts ↔
        (fsExists fs (ppath ++ ["hooks", nm]) = true ∧
         (".sh".toList.isSuffixOf nm.toList = true ∨
          ".py".toList.isSuffixOf nm.toList = true ∨
          ".cmd".toList.isSuffixOf nm.toList = true))) ∧
    (∀ t, fsGet st'.home ("plugins" :: r.plugin_name :: "hooks" :: t) =
       fsGet st.home ("plugins" :: r.plugin_name :: "hooks" :: t)) ∧
    r.installed_components.find? (fun e => e.1 == "hooks") = none ∧
    "Hooks installed but require manual bundle configuration" ∉ r.warnings := by
  have hdh := parse_plugin_hooks fs ppath plugin hp
  rw [discover_hooks_no_json fs ppath hdir hnoj] at hdh
  injection hdh with hdh
  rw [Prod.mk.injEq] at hdh
  obtain ⟨hcfg, hscripts⟩ := hdh
  have hcfg' : plugin.hooks_config = none := hcfg.symm
  have hfh : plugin.has_hooks = false := by
    unfold ParsedPlugin.has_hooks
    rw [hcfg']
    rfl
  have hex : fsExists fs ppath = true := parse_plugin_ok_exists hp
  have hresolve : resolve_source fs ppath = .ok ppath := by
    unfold resolve_source
    rw [hex]
    simp
  unfold install_plugin at hins
  simp only [hresolve, hp] at hins
  cases hgi : get_installed_plugins st.registry with
  | error e =>
    simp only [hgi] at hins
    exact Except.noConfusion (congrArg Prod.fst hins)
  | ok installed =>
    simp only [hgi] at hins
    cases hn : plugin.manifest.name with
    | null =>
      simp only [hn] at hins
      exact Except.noConfusion (congrArg Prod.fst hins)
    | bool b =>
      simp only [hn] at hins
      exact Except.noConfusion (congrArg Prod.fst hins)
    | int i =>
      simp only [hn] at hins
      exact Except.noConfusion (congrArg Prod.fst hins)
    | list xs =>
      simp only [hn] at hins
      exact Except.noConfusion (congrArg Prod.fst hins)
    | map kvs =>
      simp only [hn] at hins
      exact Except.noConfusion (congrArg Prod.fst hins)
    | str n =>
      simp only [hn] at hins
      by_cases hcond : (installed.any (fun e => e.1 == n) && !force) = true
      · rw [if_pos hcond] at hins
        rw [Prod.mk.injEq] at hins
        obtain ⟨hres, hst⟩ := hins
        injection hres with hres
        rw [← hres] at hsucc
        exact absurd hsucc (by simp)
      · rw [if_neg hcond] at hins
        obtain ⟨hpn, hfind, hwarn, hhome⟩ :=
          installRest_noHooks yload ydump fs ppath plugin n now st r st' hins hfh
        refine ⟨hcfg', hfh, ?_, ?_, hfind, hwarn⟩
        · intro nm
          rw [← hscripts]
          exact mem_hooks_script_list fs ppath nm
        · intro t
          rw [hpn]
          exact hhome t

/-- Witness for C10: a plugin with a `hooks/` directory holding `run.sh`
and no `hooks.json`, parsed and successfully installed into a fresh
home. -/
theorem hooks_scripts_without_config_witness :
    ∃ plugin r st',
      parse_plugin fsHooks ["p"] = .ok plugin ∧
      install_plugin miniYamlLoad miniYamlDump fsHooks ["p"] false "t" stEmpty
        = (.ok r, st') ∧
      r.success = true ∧
      plugin.hooks_config = none ∧
      plugin.has_hooks = false ∧
      (["p"] ++ ["hooks", "run.sh"]) ∈ plugin.hooks_scripts ∧
      fsGet st'.home ("plugins" :: r.plugin_name :: "hooks" :: []) =
        fsGet stEmpty.home ("plugins" :: r.plugin_name :: "hooks" :: []) ∧
      r.installed_components.find? (fun e => e.1 == "hooks") = none ∧
      "Hooks installed but require manual bundle configuration" ∉ r.warnings := by
  apply Exists.intro
  apply Exists.intro
  apply Exists.intro
  refine ⟨rfl, rfl, rfl, ?_, ?_, ?_, ?_, ?_, ?_⟩
  · exact (hooks_scripts_without_config miniYamlLoad miniYamlDump fsHooks ["p"]
      _ false "t" stEmpty _ _ rfl rfl rfl rfl rfl).1
  · exact (hooks_scripts_without_config miniYamlLoad miniYamlDump fsHooks ["p"]
      _ false "t" stEmpty _ _ rfl rfl rfl rfl rfl).2.1
  · exact ((hooks_scripts_without_config miniYamlLoad miniYamlDump fsHooks ["p"]
      _ false "t" stEmpty _ _ rfl rfl rfl rfl rfl).2.2.1 "run.sh").mpr
      ⟨rfl, Or.inl (by decide)⟩
  · exact (hooks_scripts_without_config miniYamlLoad miniYamlDump fsHooks ["p"]
      _ false "t" stEmpty _ _ rfl rfl rfl rfl rfl).2.2.2.1 []
  · exact (hooks_scripts_without_config miniYamlLoad miniYamlDump fsHooks ["p"]
      _ false "t" stEmpty _ _ rfl rfl rfl rfl rfl).2.2.2.2.1
  · exact (hooks_scripts_without_config miniYamlLoad miniYamlDump fsHooks ["p"]
      _ false "t" stEmpty _ _ rfl rfl rfl rfl rfl).2.2.2.2.2
